import Mathlib

/-!
Verification development for the signed-URL cache and proactive refresh engine
(the `useImageUrlRefresh` module): a shallow embedding of the module-level
singleton state (`urlCache`, `refreshQueue`, `proactiveRefreshTimers`,
`proactiveRefreshScheduling`, `queueProcessingTimeout`, `isProcessingQueue`,
`expirySeconds`, `urlUpdateListeners`) and of the operations
`parseExpirationFromPresignedUrl`, `queueRefreshRequest`,
`scheduleQueueProcessing`, `processRefreshQueue`, `scheduleProactiveRefresh`,
`notifyUrlUpdate` and `getUrl`.

Modelling conventions:
- Timestamps and durations are measured in milliseconds.  Every time value
  the module manipulates is integer-valued (`Date.now()`, parsed second
  counts scaled by 1000), so they are embedded as `Int`; the single
  non-integer quantity, the proactive delay `remainingMs * 0.8`, is embedded
  exactly as a rational with the float constant `0.8` read as `4/5`.
- JavaScript `Map` objects are embedded as association lists with the exact
  `get`/`set`/`delete` semantics of `Map` (insertion order preserved, `set`
  replaces in place), so `Array.from(map.values()).slice(0, n)` is
  `List.take n`.
- `setTimeout` callbacks are embedded as explicit transition functions, and an
  armed timeout is recorded in the state (`queueProcessingTimeout` stores the
  absolute deadline, `proactiveRefreshTimers` stores the delay and the captured
  arguments).  Side effects that leave the subsystem (resolving or rejecting a
  caller's promise, notifying a listener, issuing the backend POST, scheduling
  a deferred callback) are recorded as an ordered event list.
- The platform primitives `new URL(u)` / `u.searchParams` are external to the
  module; they enter the model as a parameter of type
  `String → Option (List (String × String))` (`none` models a throwing
  constructor, `some q` the ordered query-parameter list).  `Number(s)` and
  `Date.UTC` are embedded for the string shapes this module feeds them.
-/

namespace UrlRefreshCache

/-- JavaScript `Map.get`: the value stored at the first (and, under the nodup
key invariant, only) occurrence of the key. -/
def mapGet (m : List (String × α)) (k : String) : Option α :=
  match m with
  | [] => none
  | p :: rest => if p.1 = k then some p.2 else mapGet rest k

/-- JavaScript `Map.set`: replaces the value in place if the key is present,
otherwise appends the new binding at the end (insertion order). -/
def mapSet (m : List (String × α)) (k : String) (v : α) : List (String × α) :=
  match m with
  | [] => [(k, v)]
  | p :: rest => if p.1 = k then (k, v) :: rest else p :: mapSet rest k v

/-- JavaScript `Map.delete`: removes the binding of the key (the first
occurrence, which is the only one under the nodup key invariant). -/
def mapDelete (m : List (String × α)) (k : String) : List (String × α) :=
  match m with
  | [] => []
  | p :: rest => if p.1 = k then rest else p :: mapDelete rest k

/-- The keys of the map, in insertion order. -/
def mapKeys (m : List (String × α)) : List String :=
  m.map Prod.fst

/-- A well-formed `Map` never holds two bindings for the same key. -/
def nodupKeys (m : List (String × α)) : Prop :=
  (mapKeys m).Nodup

/-- Number of bindings a raw association list holds for a key (equals 0 or 1
on lists satisfying `nodupKeys`). -/
def countKey (m : List (String × α)) (k : String) : Nat :=
  (mapKeys m).count k

theorem mapGet_mapSet_self (m : List (String × α)) (k : String) (v : α) :
    mapGet (mapSet m k v) k = some v := by
  induction m with
  | nil => simp [mapGet, mapSet]
  | cons hd tl ih =>
    by_cases h : hd.1 = k <;> simp [mapGet, mapSet, h, ih]

theorem mapGet_mapSet_ne (m : List (String × α)) (k k2 : String) (v : α)
    (h : k2 ≠ k) : mapGet (mapSet m k v) k2 = mapGet m k2 := by
  have h2 : ¬ k = k2 := fun e => h e.symm
  induction m with
  | nil => simp [mapGet, mapSet, h2]
  | cons hd tl ih =>
    by_cases hh : hd.1 = k
    · simp [mapSet, mapGet, hh, h2]
    · simp [mapSet, mapGet, hh, ih]

theorem mapSet_eq_of_mapGet (m : List (String × α)) (k : String) (v : α)
    (h : mapGet m k = some v) : mapSet m k v = m := by
  induction m with
  | nil => simp [mapGet] at h
  | cons hd tl ih =>
    by_cases hh : hd.1 = k
    · simp [mapGet, hh] at h
      simp [mapSet, hh, h, Prod.ext_iff]
    · simp [mapGet, hh] at h
      simp [mapSet, hh, ih h]

theorem mapSet_mapSet (m : List (String × α)) (k : String) (v v2 : α) :
    mapSet (mapSet m k v) k v2 = mapSet m k v2 := by
  induction m with
  | nil => simp [mapSet]
  | cons hd tl ih =>
    by_cases hh : hd.1 = k <;> simp [mapSet, hh, ih]

theorem mapGet_eq_none_iff (m : List (String × α)) (k : String) :
    mapGet m k = none ↔ k ∉ mapKeys m := by
  induction m with
  | nil => simp [mapGet, mapKeys]
  | cons hd tl ih =>
    by_cases hh : hd.1 = k
    · simp [mapGet, mapKeys, hh]
    · have hh2 : ¬ k = hd.1 := fun e => hh e.symm
      simp [mapGet, mapKeys, hh, hh2, ih]

theorem mapSet_of_absent (m : List (String × α)) (k : String) (v : α)
    (h : mapGet m k = none) : mapSet m k v = m ++ [(k, v)] := by
  induction m with
  | nil => simp [mapSet]
  | cons hd tl ih =>
    by_cases hh : hd.1 = k
    · simp [mapGet, hh] at h
    · simp [mapGet, hh] at h
      simp [mapSet, hh, ih h]

theorem mapKeys_mapSet_of_present (m : List (String × α)) (k : String) (v : α)
    (h : mapGet m k = some w) : mapKeys (mapSet m k v) = mapKeys m := by
  induction m with
  | nil => simp [mapGet] at h
  | cons hd tl ih =>
    by_cases hh : hd.1 = k
    · simp [mapSet, mapKeys, hh]
    · simp [mapGet, hh] at h
      simp [mapSet, mapKeys, hh] at ih ⊢
      exact ih h

theorem mapKeys_mapDelete (m : List (String × α)) (k : String) :
    mapKeys (mapDelete m k) = (mapKeys m).erase k := by
  induction m with
  | nil => simp [mapDelete, mapKeys]
  | cons hd tl ih =>
    by_cases hh : hd.1 = k
    · simp [mapDelete, mapKeys, hh, List.erase_cons_head]
    · simp [mapDelete, mapKeys, hh]
      simpa [mapKeys] using ih

theorem nodupKeys_mapSet (m : List (String × α)) (k : String) (v : α)
    (h : nodupKeys m) : nodupKeys (mapSet m k v) := by
  rcases hg : mapGet m k with _ | w
  · rw [nodupKeys, mapSet_of_absent m k v hg]
    have hk : k ∉ mapKeys m := (mapGet_eq_none_iff m k).mp hg
    simp [mapKeys] at h hk ⊢
    exact List.Nodup.append h (List.nodup_singleton k) (by simp [List.disjoint_singleton, hk])
  · rw [nodupKeys, mapKeys_mapSet_of_present m k v hg]
    exact h

theorem nodupKeys_mapDelete (m : List (String × α)) (k : String)
    (h : nodupKeys m) : nodupKeys (mapDelete m k) := by
  rw [nodupKeys, mapKeys_mapDelete]
  exact h.erase k

theorem countKey_eq_zero (m : List (String × α)) (k : String)
    (h : mapGet m k = none) : countKey m k = 0 := by
  have hk : k ∉ mapKeys m := (mapGet_eq_none_iff m k).mp h
  simp [countKey, List.count_eq_zero, hk]

theorem countKey_mapSet_of_absent (m : List (String × α)) (k : String) (v : α)
    (h : mapGet m k = none) : countKey (mapSet m k v) k = 1 := by
  have hk : k ∉ mapKeys m := (mapGet_eq_none_iff m k).mp h
  rw [countKey, mapSet_of_absent m k v h]
  simp only [mapKeys, List.map_append] at hk ⊢
  simp [List.count_append, List.count_eq_zero.mpr hk]

theorem countKey_mapSet_of_present (m : List (String × α)) (k : String) (v : α)
    (h : mapGet m k = some w) : countKey (mapSet m k v) k = countKey m k := by
  rw [countKey, countKey, mapKeys_mapSet_of_present m k v h]

/-- JavaScript `String.prototype.slice(a, b)` for `0 ≤ a ≤ b`: the characters
at positions `a` to `b - 1`, clamped to the string length (the result is
shorter, possibly empty, when the string ends early). -/
def jsSlice (s : String) (a b : Nat) : String :=
  String.mk ((s.toList.drop a).take (b - a))

/-- Decimal value of a digit list. -/
def digitsVal (l : List Char) : Nat :=
  l.foldl (fun acc c => 10 * acc + (c.toNat - 48)) 0

/-- Model of JavaScript `Number(s)` on the string shapes this module feeds it:
the empty string converts to `0` (a JS quirk the module inherits through
out-of-range `slice` results), a nonempty all-digit string converts to its
decimal value, and any other string is treated as `NaN`, modelled as `none`.
(Signs, fractions and exponents never reach `Number` on the paths modelled
here and are collapsed into the `NaN` case.) -/
def jsNum (s : String) : Option Int :=
  if s.isEmpty then some 0
  else if s.toList.all Char.isDigit then some (digitsVal s.toList : Int)
  else none

/-- Days from the Unix epoch to the civil date `y-m-d` (`m` is 1-based;
`d` may be 0 or out of range, denoting day offsets as in ECMAScript
`MakeDay`).  Standard civil-from-days arithmetic over `Int` with floor
division. -/
def daysFromCivil (y m d : Int) : Int :=
  let y2 := if m ≤ 2 then y - 1 else y
  let era := Int.fdiv y2 400
  let yoe := y2 - era * 400
  let mp := Int.fmod (m + 9) 12
  let doy := Int.fdiv (153 * mp + 2) 5 + d - 1
  let doe := yoe * 365 + Int.fdiv yoe 4 - Int.fdiv yoe 100 + doy
  era * 146097 + doe - 719468

/-- Model of ECMAScript `Date.UTC(year, month, day, h, min, s)` on integer
arguments: years 0–99 map to 1900–1999, the 0-based month is normalized with
floor division/modulo (`MakeDay`), and the resulting millisecond count is
clipped to ±8.64e15 (`TimeClip`); `none` models `NaN`. -/
def dateUTC (year month day h mi s : Int) : Option Int :=
  let yr := if 0 ≤ year ∧ year ≤ 99 then 1900 + year else year
  let ym := yr + Int.fdiv month 12
  let mn := Int.fmod month 12
  let days := daysFromCivil ym (mn + 1) day
  let t := (((days * 24 + h) * 60 + mi) * 60 + s) * 1000
  if t ≤ 8640000000000000 ∧ -8640000000000000 ≤ t then some t else none

/-- The successful result of `parseExpirationFromPresignedUrl`. -/
structure ParsedExpiration where
  expiresAt : Int
  expiresIn : Int
deriving DecidableEq

/-- Embedding of `parseExpirationFromPresignedUrl(url)`.  The platform call
`new URL(url)` together with `searchParams` is external; its outcome enters
as the argument `u`: `none` when the constructor throws (the `catch` branch),
`some q` with `q` the ordered query-parameter list otherwise, so
`searchParams.get` is the first-occurrence lookup.  `now` is `Date.now()`.
The function extracts `X-Amz-Date` and `X-Amz-Expires` (rejecting absent or
empty values, which are falsy), converts the six fixed-position slices of the
date string with `Number`, combines them with `Date.UTC`, rejects a
non-finite timestamp or a non-finite or non-positive expires value, and
returns the absolute expiry `baseMs + expiresSec * 1000` with the clamped
non-negative remaining lifetime. -/
def parseExpirationFromPresignedUrl (u : Option (List (String × String)))
    (now : Int) : Option ParsedExpiration :=
  match u with
  | none => none
  | some q =>
    match q.lookup "X-Amz-Date", q.lookup "X-Amz-Expires" with
    | some dateStr, some expiresStr =>
      if dateStr.isEmpty ∨ expiresStr.isEmpty then none
      else
        let baseMs : Option Int :=
          match jsNum (jsSlice dateStr 0 4), jsNum (jsSlice dateStr 4 6),
                jsNum (jsSlice dateStr 6 8), jsNum (jsSlice dateStr 9 11),
                jsNum (jsSlice dateStr 11 13), jsNum (jsSlice dateStr 13 15) with
          | some year, some month, some day, some h, some mi, some s =>
            dateUTC year (month - 1) day h mi s
          | _, _, _, _, _, _ => none
        match baseMs, jsNum expiresStr with
        | some b, some e =>
          if e ≤ 0 then none
          else
            let expiresAtMs : Int := b + e * 1000
            some ⟨expiresAtMs, max 0 (expiresAtMs - now)⟩
        | _, _ => none
    | _, _ => none

/-- The `UrlMetadata` interface: one `urlCache` entry. -/
structure UrlMetadata where
  url : String
  createdAt : Int
  expiresIn : Int
  expiresAt : Int
deriving DecidableEq

/-- A `QueuedRequest` of the `refreshQueue`.  The source stores one `resolve`
and one `reject` closure and chains further callers onto them by function
composition; the chain is embedded as the ordered list of waiter identifiers
it would invoke. -/
structure QueuedRequest where
  caseId : String
  imageIndex : Nat
  waiters : List Nat
  retries : Nat
deriving DecidableEq

/-- A `proactiveRefreshTimers` entry: the armed `setTimeout` with its delay
and the `caseId`/`imageIndex` captured by the callback closure. -/
structure TimerRecord where
  caseId : String
  imageIndex : Nat
  delay : Rat
deriving DecidableEq

/-- One element of the `data` array of the batch-refresh response body. -/
structure RefreshResponse where
  caseId : String
  imageIndex : Nat
  success : Bool
  url : Option String
  error : Option String
deriving DecidableEq

/-- Outcome of the awaited backend call in `processRefreshQueue`.  `failure`
covers everything the `try` block turns into a thrown error: a rejected
`fetch` (connection error), a non-ok HTTP status, a body whose `success` flag
is falsy or whose `data` is not an array.  `ok` carries the optional numeric
`expirySeconds` field and the `data` array. -/
inductive BackendResult where
  | failure
  | ok (expirySecondsField : Option Int) (data : List RefreshResponse)
deriving DecidableEq

/-- Externally observable side effects, in program order. -/
inductive Event where
  | listenerNotified (listener : Nat) (key url : String)
  | resolved (waiter : Nat) (url : Option String)
  | rejected (waiter : Nat) (message : String)
  | enqueueLater (caseId : String) (imageIndex : Nat)
  | deferredCheck (caseId : String) (imageIndex : Nat) (waiter : Nat)
  | timerArmed (key : String) (delay : Rat)
  | batchRequest (requests : List (String × Nat))
deriving DecidableEq

/-- The module-level singleton state.  `queueProcessingTimeout` holds the
absolute deadline of the armed debounce `setTimeout`, `none` when cleared. -/
structure ModuleState where
  urlCache : List (String × UrlMetadata)
  refreshQueue : List (String × QueuedRequest)
  proactiveRefreshTimers : List (String × TimerRecord)
  proactiveRefreshScheduling : List String
  queueProcessingTimeout : Option Int
  isProcessingQueue : Bool
  expirySeconds : Int
  urlUpdateListeners : List Nat
deriving DecidableEq

/-- The module-initialization state: empty maps, no timers, no processing in
flight, `expirySeconds = 180`. -/
def initialState : ModuleState :=
  { urlCache := []
    refreshQueue := []
    proactiveRefreshTimers := []
    proactiveRefreshScheduling := []
    queueProcessingTimeout := none
    isProcessingQueue := false
    expirySeconds := 180
    urlUpdateListeners := [] }

/-- The cache key: the template literal of the source. -/
def mkKey (caseId : String) (imageIndex : Nat) : String :=
  caseId ++ "-" ++ toString imageIndex

/-- `notifyUrlUpdate(key, url)`: invokes every currently subscribed listener
(each delivery is wrapped in its own try/catch, so every listener is
reached). -/
def notifyUrlUpdate (listeners : List Nat) (key url : String) : List Event :=
  listeners.map fun l => Event.listenerNotified l key url

/-- `scheduleQueueProcessing()`: clears any armed debounce timeout and arms a
fresh one, `DEBOUNCE_DELAY = 500` ms from now. -/
def scheduleQueueProcessing (now : Int) (s : ModuleState) : ModuleState :=
  { s with queueProcessingTimeout := some (now + 500) }

/-- The tail of `queueRefreshRequest` after the valid-cache early return:
dedup against an existing queue record, deferral behind an armed proactive
timer, or enqueue-and-debounce.  `w` identifies the caller's
`resolve`/`reject` pair. -/
def queueRefreshRequestCore (caseId : String) (imageIndex : Nat) (w : Nat)
    (now : Int) (s : ModuleState) : ModuleState × List Event :=
  let key := mkKey caseId imageIndex
  match mapGet s.refreshQueue key with
  | some existing =>
    ({ s with refreshQueue :=
        mapSet s.refreshQueue key ({ existing with waiters := existing.waiters ++ [w] }) }, [])
  | none =>
    if (mapGet s.proactiveRefreshTimers key).isSome then
      (s, [Event.deferredCheck caseId imageIndex w])
    else
      (scheduleQueueProcessing now
        { s with refreshQueue :=
            mapSet s.refreshQueue key ⟨caseId, imageIndex, [w], 0⟩ }, [])

/-- `queueRefreshRequest(caseId, imageIndex)`: resolves immediately from a
still-valid cache entry, otherwise falls through to the queueing logic. -/
def queueRefreshRequest (caseId : String) (imageIndex : Nat) (w : Nat)
    (now : Int) (s : ModuleState) : ModuleState × List Event :=
  let key := mkKey caseId imageIndex
  match mapGet s.urlCache key with
  | some metadata =>
    if now ≥ metadata.expiresAt then
      queueRefreshRequestCore caseId imageIndex w now s
    else
      (s, [Event.resolved w (some metadata.url)])
  | none => queueRefreshRequestCore caseId imageIndex w now s

/-- `scheduleProactiveRefresh(caseId, imageIndex, key)`: arms a proactive
timer at `REFRESH_THRESHOLD = 0.8` of the remaining lifetime unless a timer
already exists, no metadata exists, `remainingMs ≤ 10000`, the delay is below
5000 ms, or the key carries the transient `proactiveRefreshScheduling`
marker.  (The marker is added before `setTimeout` and removed right after,
within the same synchronous run, so it nets to no state change here.)  The
float multiplication by `0.8` is embedded as the exact `4/5`. -/
def scheduleProactiveRefresh (caseId : String) (imageIndex : Nat) (key : String)
    (now : Int) (s : ModuleState) : ModuleState × List Event :=
  if (mapGet s.proactiveRefreshTimers key).isSome then (s, [])
  else
    match mapGet s.urlCache key with
    | none => (s, [])
    | some metadata =>
      let remainingMs := metadata.expiresAt - now
      if remainingMs ≤ 10000 then (s, [])
      else
        let proactiveRefreshTime := (remainingMs : Rat) * (4 / 5 : Rat)
        if proactiveRefreshTime < 5000 then (s, [])
        else if key ∈ s.proactiveRefreshScheduling then (s, [])
        else
          ({ s with proactiveRefreshTimers :=
              mapSet s.proactiveRefreshTimers key ⟨caseId, imageIndex, proactiveRefreshTime⟩ },
           [Event.timerArmed key proactiveRefreshTime])

/-- Firing of an armed proactive timer: the callback first deletes the timer
and the scheduling marker, then calls `queueRefreshRequest` with the captured
arguments (`w` identifies the continuation attached by `.then`). -/
def proactiveTimerFire (key : String) (w : Nat) (now : Int)
    (s : ModuleState) : ModuleState × List Event :=
  match mapGet s.proactiveRefreshTimers key with
  | none => (s, [])
  | some t =>
    queueRefreshRequest t.caseId t.imageIndex w now
      { s with proactiveRefreshTimers := mapDelete s.proactiveRefreshTimers key,
               proactiveRefreshScheduling := s.proactiveRefreshScheduling.erase key }

/-- The `.then` continuation of the proactive-timer callback when the promise
resolved with a non-null `newUrl`: re-parses the URL, replaces the cache
entry, conditionally reschedules, and notifies all listeners. -/
def proactiveFireSuccess (urlQuery : String → Option (List (String × String)))
    (caseId : String) (imageIndex : Nat) (key newUrl : String) (now : Int)
    (s : ModuleState) : ModuleState × List Event :=
  let parsed := parseExpirationFromPresignedUrl (urlQuery newUrl) now
  let fallbackExpiresIn := s.expirySeconds * 1000
  let expiresIn := (parsed.map ParsedExpiration.expiresIn).getD fallbackExpiresIn
  let expiresAt := (parsed.map ParsedExpiration.expiresAt).getD (now + fallbackExpiresIn)
  let s1 :=
    { s with urlCache := mapSet s.urlCache key ⟨newUrl, now, expiresIn, expiresAt⟩ }
  let newRemainingMs := expiresAt - now
  let r :=
    if newRemainingMs > 10000 ∧ (mapGet s1.proactiveRefreshTimers key).isNone then
      scheduleProactiveRefresh caseId imageIndex key now s1
    else (s1, [])
  (r.1, r.2 ++ notifyUrlUpdate s.urlUpdateListeners key newUrl)

/-- The 100 ms continuation of the deferred branch of `queueRefreshRequest`
(taken when a proactive timer was armed at enqueue time): re-checks the
cache and either resolves from it or stores a fresh queue record
unconditionally, then debounces. -/
def deferredQueueCheck (caseId : String) (imageIndex : Nat) (w : Nat)
    (now : Int) (s : ModuleState) : ModuleState × List Event :=
  let key := mkKey caseId imageIndex
  match mapGet s.urlCache key with
  | some updatedMetadata =>
    if now < updatedMetadata.expiresAt then
      (s, [Event.resolved w (some updatedMetadata.url)])
    else
      (scheduleQueueProcessing now
        { s with refreshQueue :=
            mapSet s.refreshQueue key ⟨caseId, imageIndex, [w], 0⟩ }, [])
  | none =>
    (scheduleQueueProcessing now
      { s with refreshQueue :=
          mapSet s.refreshQueue key ⟨caseId, imageIndex, [w], 0⟩ }, [])

/-- `getUrl(caseId, imageIndex, originalUrl)`: the facade read.  Returns the
cached URL (stale or not) when an entry exists, possibly scheduling an
asynchronous refresh; otherwise seeds the cache from `originalUrl` (guarded
by `expiresAt > now || expiresIn > 0`) and returns `originalUrl`. -/
def getUrl (urlQuery : String → Option (List (String × String)))
    (caseId : String) (imageIndex : Nat) (originalUrl : String) (now : Int)
    (s : ModuleState) : String × ModuleState × List Event :=
  let key := mkKey caseId imageIndex
  match mapGet s.urlCache key with
  | some metadata =>
    if now ≥ metadata.expiresAt then
      if (mapGet s.refreshQueue key).isNone ∧ (mapGet s.proactiveRefreshTimers key).isNone then
        (metadata.url, s, [Event.enqueueLater caseId imageIndex])
      else
        (metadata.url, s, [])
    else
      (metadata.url, s, [])
  | none =>
    let parsed := parseExpirationFromPresignedUrl (urlQuery originalUrl) now
    let fallbackExpiresIn := s.expirySeconds * 1000
    let expiresIn := (parsed.map ParsedExpiration.expiresIn).getD fallbackExpiresIn
    let expiresAt := (parsed.map ParsedExpiration.expiresAt).getD (now + fallbackExpiresIn)
    if expiresAt > now ∨ expiresIn > 0 then
      let s1 :=
        { s with urlCache := mapSet s.urlCache key ⟨originalUrl, now, expiresIn, expiresAt⟩ }
      if expiresAt ≤ now then
        if (mapGet s1.refreshQueue key).isNone ∧ (mapGet s1.proactiveRefreshTimers key).isNone then
          (originalUrl, s1, [Event.enqueueLater caseId imageIndex])
        else
          (originalUrl, s1, [])
      else
        if expiresAt - now > 10000 ∧ (mapGet s1.proactiveRefreshTimers key).isNone then
          let r := scheduleProactiveRefresh caseId imageIndex key now s1
          (originalUrl, r.1, r.2)
        else
          (originalUrl, s1, [])
    else
      (originalUrl, s, [])

/-- The truthiness test `response.success && response.url` of the response
loop: the refreshed URL when the response is usable, `none` otherwise
(remember the empty string is falsy). -/
def successUrl (resp : RefreshResponse) : Option String :=
  match resp.url with
  | some u => if resp.success ∧ ¬ u.isEmpty then some u else none
  | none => none

/-- One iteration of the response loop of `processRefreshQueue`: skip unknown
keys; on success store the re-parsed entry, reschedule the proactive timer,
notify listeners, resolve the waiters and drop the record; on failure either
bump the retry counter in place (`retries < MAX_RETRIES = 2`) or reject the
waiters and drop the record. -/
def processResponse (urlQuery : String → Option (List (String × String)))
    (now : Int) (resp : RefreshResponse) (s : ModuleState) : ModuleState × List Event :=
  let key := mkKey resp.caseId resp.imageIndex
  match mapGet s.refreshQueue key with
  | none => (s, [])
  | some queued =>
    match successUrl resp with
    | some u =>
      let parsed := parseExpirationFromPresignedUrl (urlQuery u) now
      let fallbackExpiresIn := s.expirySeconds * 1000
      let expiresIn := (parsed.map ParsedExpiration.expiresIn).getD fallbackExpiresIn
      let expiresAt := (parsed.map ParsedExpiration.expiresAt).getD (now + fallbackExpiresIn)
      let s1 :=
        { s with urlCache := mapSet s.urlCache key ⟨u, now, expiresIn, expiresAt⟩ }
      let r := scheduleProactiveRefresh resp.caseId resp.imageIndex key now s1
      let s2 := { r.1 with refreshQueue := mapDelete r.1.refreshQueue key }
      (s2, r.2 ++ notifyUrlUpdate s.urlUpdateListeners key u
            ++ queued.waiters.map fun w2 => Event.resolved w2 (some u))
    | none =>
      if queued.retries < 2 then
        ({ s with refreshQueue :=
            mapSet s.refreshQueue key ({ queued with retries := queued.retries + 1 }) }, [])
      else
        ({ s with refreshQueue := mapDelete s.refreshQueue key },
         queued.waiters.map fun w2 =>
           Event.rejected w2 ((resp.error).getD "Failed to refresh URL after retries"))

/-- The request list of one batch: the first `MAX_BATCH_SIZE = 20` queue
records in insertion order, projected to `(caseId, imageIndex)` pairs. -/
def batchRequests (s : ModuleState) : List (String × Nat) :=
  (s.refreshQueue.take 20).map fun p => (p.2.caseId, p.2.imageIndex)

/-- `processRefreshQueue()` around one awaited backend call whose outcome is
`result`.  On a transport-wide failure (the `catch` block) every record of
the current batch is rejected and dropped — with no retry-counter logic —
and a debounce timer is restarted if records remain.  On a delivered body
the optional positive `expirySeconds` field first overwrites the module-wide
fallback, then the response loop runs; if records remain afterwards the
continuation timer is armed and `isProcessingQueue` stays set until it
fires. -/
def processRefreshQueue (urlQuery : String → Option (List (String × String)))
    (now : Int) (result : BackendResult) (s : ModuleState) : ModuleState × List Event :=
  if s.isProcessingQueue ∨ s.refreshQueue.isEmpty then (s, [])
  else
    let requests := batchRequests s
    match result with
    | BackendResult.failure =>
      let batch := s.refreshQueue.take 20
      let remaining := batch.foldl (fun q (p : String × QueuedRequest) => mapDelete q p.1)
        s.refreshQueue
      let s1 := { s with refreshQueue := remaining }
      let events := batch.foldr
        (fun p acc => (p.2.waiters.map fun w2 => Event.rejected w2 "Unknown error") ++ acc) []
      if s1.refreshQueue.isEmpty then
        ({ s1 with isProcessingQueue := false },
         Event.batchRequest requests :: events)
      else
        ({ s1 with isProcessingQueue := false, queueProcessingTimeout := some (now + 500) },
         Event.batchRequest requests :: events)
    | BackendResult.ok expOpt data =>
      let s1 :=
        match expOpt with
        | some e => if 0 < e then { s with expirySeconds := e } else s
        | none => s
      let folded := data.foldl
        (fun (acc : ModuleState × List Event) resp =>
          let r := processResponse urlQuery now resp acc.1
          (r.1, acc.2 ++ r.2))
        (s1, [])
      if folded.1.refreshQueue.isEmpty then
        ({ folded.1 with isProcessingQueue := false },
         Event.batchRequest requests :: folded.2)
      else
        ({ folded.1 with isProcessingQueue := true, queueProcessingTimeout := some (now + 500) },
         Event.batchRequest requests :: folded.2)

/-! Helper lemmas. -/

theorem mapGet_mapDelete_self (m : List (String × α)) (k : String)
    (h : nodupKeys m) : mapGet (mapDelete m k) k = none := by
  rw [mapGet_eq_none_iff, mapKeys_mapDelete]
  intro hmem
  rcases (List.Nodup.mem_erase_iff h).mp hmem with ⟨hne, _⟩
  exact hne rfl

theorem parseExpiration_expiresIn_eq (u : Option (List (String × String))) (now : Int)
    (r : ParsedExpiration) (h : parseExpirationFromPresignedUrl u now = some r) :
    r.expiresIn = max 0 (r.expiresAt - now) := by
  rcases u with _ | q
  · simp [parseExpirationFromPresignedUrl] at h
  · simp only [parseExpirationFromPresignedUrl] at h
    split at h
    · split at h
      · simp at h
      · split at h
        · split at h
          · simp at h
          · rw [Option.some.inj h.symm]
        · simp at h
    · simp at h

/-- Shorthand for the state whose timer map gained one binding; used to state
facts about `scheduleProactiveRefresh`. -/
def armTimer (s : ModuleState) (key : String) (t : TimerRecord) : ModuleState :=
  { s with proactiveRefreshTimers := mapSet s.proactiveRefreshTimers key t }

theorem scheduleProactiveRefresh_char (caseId : String) (imageIndex : Nat) (key : String)
    (now : Int) (s : ModuleState) :
    scheduleProactiveRefresh caseId imageIndex key now s = (s, []) ∨
    ∃ m : UrlMetadata, mapGet s.urlCache key = some m ∧
      scheduleProactiveRefresh caseId imageIndex key now s =
        (armTimer s key ⟨caseId, imageIndex, ((m.expiresAt : Rat) - (now : Rat)) * (4 / 5 : Rat)⟩,
         [Event.timerArmed key (((m.expiresAt : Rat) - (now : Rat)) * (4 / 5 : Rat))]) := by
  rw [scheduleProactiveRefresh]
  split
  · exact Or.inl rfl
  · rcases hm : mapGet s.urlCache key with _ | m
    · exact Or.inl rfl
    · by_cases h1 : m.expiresAt - now ≤ 10000
      · exact Or.inl (by simp [h1])
      · by_cases h2 : ((m.expiresAt : Rat) - (now : Rat)) * (4 / 5 : Rat) < 5000
        · exact Or.inl (by simp [h1, h2])
        · by_cases h3 : key ∈ s.proactiveRefreshScheduling
          · exact Or.inl (by simp [h1, h2, h3])
          · exact Or.inr ⟨m, rfl, by simp [h1, h2, h3, armTimer]⟩

theorem scheduleProactiveRefresh_urlCache (caseId : String) (imageIndex : Nat)
    (key : String) (now : Int) (s : ModuleState) :
    (scheduleProactiveRefresh caseId imageIndex key now s).1.urlCache = s.urlCache := by
  rcases scheduleProactiveRefresh_char caseId imageIndex key now s with h | ⟨m, _, h⟩ <;>
    simp [h, armTimer]

theorem scheduleProactiveRefresh_refreshQueue (caseId : String) (imageIndex : Nat)
    (key : String) (now : Int) (s : ModuleState) :
    (scheduleProactiveRefresh caseId imageIndex key now s).1.refreshQueue = s.refreshQueue := by
  rcases scheduleProactiveRefresh_char caseId imageIndex key now s with h | ⟨m, _, h⟩ <;>
    simp [h, armTimer]

theorem scheduleProactiveRefresh_expirySeconds (caseId : String) (imageIndex : Nat)
    (key : String) (now : Int) (s : ModuleState) :
    (scheduleProactiveRefresh caseId imageIndex key now s).1.expirySeconds = s.expirySeconds := by
  rcases scheduleProactiveRefresh_char caseId imageIndex key now s with h | ⟨m, _, h⟩ <;>
    simp [h, armTimer]

theorem scheduleProactiveRefresh_listeners (caseId : String) (imageIndex : Nat)
    (key : String) (now : Int) (s : ModuleState) :
    (scheduleProactiveRefresh caseId imageIndex key now s).1.urlUpdateListeners =
      s.urlUpdateListeners := by
  rcases scheduleProactiveRefresh_char caseId imageIndex key now s with h | ⟨m, _, h⟩ <;>
    simp [h, armTimer]

theorem scheduleProactiveRefresh_events (caseId : String) (imageIndex : Nat)
    (key : String) (now : Int) (s : ModuleState) :
    ∀ e ∈ (scheduleProactiveRefresh caseId imageIndex key now s).2,
      ∃ k2 d2, e = Event.timerArmed k2 d2 := by
  rcases scheduleProactiveRefresh_char caseId imageIndex key now s with h | ⟨m, _, h⟩ <;>
    rw [h] <;> intro e he <;> simp at he
  exact ⟨key, ((m.expiresAt : Rat) - (now : Rat)) * (4 / 5 : Rat), he⟩

/-! Claim C6: `parseExpirationFromPresignedUrl`. -/

/-- C6 counterexample: the claim states that every input other than a
well-formed `X-Amz-Date`/positive `X-Amz-Expires` pair yields `null`, but a
URL whose `X-Amz-Date` is the malformed four-character string `2024` parses
to a non-null result: the out-of-range slices are empty strings, JavaScript
`Number` converts the empty string to `0`, and `Date.UTC(2024, -1, 0, 0, 0, 0)`
normalizes to a finite timestamp (1701302400000, 2023-11-30T00:00:00Z), so
the function returns `expiresAt = 1701302460000` instead of `null`. -/
theorem parseExpiration_malformed_nonnull :
    parseExpirationFromPresignedUrl
      (some [("X-Amz-Date", "2024"), ("X-Amz-Expires", "60")]) 0 =
    some ⟨1701302460000, 1701302460000⟩ := by decide

/-- C6 amended: `parseExpirationFromPresignedUrl` is a total function (the
embedding returns `none` where the source returns `null`; the `try`/`catch`
of the source means no input throws).  When the query holds a nonempty
`X-Amz-Date` whose six fixed-position slices all `Number`-convert and combine
to a finite `Date.UTC` timestamp `b`, and a nonempty `X-Amz-Expires`
converting to some `e > 0`, the result is `expiresAt = b + e * 1000` with the
clamped non-negative `expiresIn` — regardless of any other query parameters,
since only the first occurrences of the two parameters are consulted.  Every
`some` result has non-negative `expiresIn`; a missing `X-Amz-Date` or a
throwing URL constructor yields `none`.  (Unlike the original claim, a
malformed date string is not guaranteed to yield `none`: see the
counterexample.) -/
theorem parseExpiration_amended
    (q : List (String × String)) (now : Int) (dStr eStr : String)
    (y mo d hr mi sec b e : Int)
    (hd : q.lookup "X-Amz-Date" = some dStr)
    (he : q.lookup "X-Amz-Expires" = some eStr)
    (hdne : dStr.isEmpty = false) (hene : eStr.isEmpty = false)
    (h0 : jsNum (jsSlice dStr 0 4) = some y)
    (h1 : jsNum (jsSlice dStr 4 6) = some mo)
    (h2 : jsNum (jsSlice dStr 6 8) = some d)
    (h3 : jsNum (jsSlice dStr 9 11) = some hr)
    (h4 : jsNum (jsSlice dStr 11 13) = some mi)
    (h5 : jsNum (jsSlice dStr 13 15) = some sec)
    (hb : dateUTC y (mo - 1) d hr mi sec = some b)
    (hex : jsNum eStr = some e) (hpos : 0 < e) :
    parseExpirationFromPresignedUrl (some q) now =
      some ⟨b + e * 1000, max 0 (b + e * 1000 - now)⟩ ∧
    (∀ (u2 : Option (List (String × String))) (r : ParsedExpiration),
      parseExpirationFromPresignedUrl u2 now = some r → 0 ≤ r.expiresIn) ∧
    (∀ q2 : List (String × String), q2.lookup "X-Amz-Date" = none →
      parseExpirationFromPresignedUrl (some q2) now = none) ∧
    parseExpirationFromPresignedUrl none now = none := by
  refine ⟨?_, ?_, ?_, rfl⟩
  · simp only [parseExpirationFromPresignedUrl, hd, he, hdne, hene, h0, h1, h2, h3, h4, h5,
      hb, hex]
    simp [not_le.mpr hpos]
  · intro u2 r hr2
    rw [parseExpiration_expiresIn_eq u2 now r hr2]
    exact le_max_left 0 _
  · intro q2 hq2
    simp [parseExpirationFromPresignedUrl, hq2]

/-- Witness for `parseExpiration_amended` at a concrete well-formed presigned
URL query (`2024-01-15T10:00:00Z`, valid 3600 s). -/
theorem parseExpiration_amended_witness :
    parseExpirationFromPresignedUrl
      (some [("X-Amz-Date", "20240115T100000Z"), ("X-Amz-Expires", "3600")]) 0 =
    some ⟨1705316400000, 1705316400000⟩ := by
  have h := parseExpiration_amended
    [("X-Amz-Date", "20240115T100000Z"), ("X-Amz-Expires", "3600")] 0
    "20240115T100000Z" "3600" 2024 1 15 10 0 0 1705312800000 3600
    (by decide) (by decide) (by decide) (by decide) (by decide) (by decide) (by decide)
    (by decide) (by decide) (by decide) (by decide) (by decide) (by decide)
  rw [h.1]
  norm_num

/-! Claim C2: `getUrl` on a key with an existing cache entry. -/

/-- C2: when a cache entry exists for the key, `getUrl` returns the stored
`url` both when the entry is valid and when it is expired (the stale URL),
leaves the whole module state unchanged, and ignores the `originalUrl`
argument and the URL parser entirely (the right-hand side mentions neither);
on the expired path, the deferred `setTimeout(.., 0)` enqueue of a refresh is
scheduled exactly when the key has neither a queued refresh record nor an
armed proactive timer.  No backend call and no await happens inside the call:
its only effect is the possibly scheduled asynchronous enqueue. -/
theorem getUrl_cached_frame (urlQuery : String → Option (List (String × String)))
    (caseId : String) (imageIndex : Nat) (originalUrl : String) (now : Int)
    (s : ModuleState) (m : UrlMetadata)
    (hm : mapGet s.urlCache (mkKey caseId imageIndex) = some m) :
    getUrl urlQuery caseId imageIndex originalUrl now s =
      (m.url, s,
        if now ≥ m.expiresAt ∧ (mapGet s.refreshQueue (mkKey caseId imageIndex)).isNone
            ∧ (mapGet s.proactiveRefreshTimers (mkKey caseId imageIndex)).isNone
        then [Event.enqueueLater caseId imageIndex] else []) := by
  by_cases h1 : now ≥ m.expiresAt
  · by_cases h2 : (mapGet s.refreshQueue (mkKey caseId imageIndex)).isNone
        ∧ (mapGet s.proactiveRefreshTimers (mkKey caseId imageIndex)).isNone
    · simp [getUrl, hm, h1, h2]
    · simp only [getUrl, hm]
      rw [if_pos h1, if_neg h2, if_neg (fun hcon => h2 ⟨hcon.2.1, hcon.2.2⟩)]
  · simp [getUrl, hm, h1]

/-- Witness for `getUrl_cached_frame`: a concrete expired entry with an idle
queue; the stale URL is returned, the state is untouched, and the refresh is
scheduled. -/
theorem getUrl_cached_frame_witness :
    getUrl (fun _ => none) "a" 0 "ignored" 500
      { initialState with urlCache := [("a-0", ⟨"cached", 0, 100, 100⟩)] } =
      ("cached", { initialState with urlCache := [("a-0", ⟨"cached", 0, 100, 100⟩)] },
        [Event.enqueueLater "a" 0]) := by
  have h := getUrl_cached_frame (fun _ => none) "a" 0 "ignored" 500
    { initialState with urlCache := [("a-0", ⟨"cached", 0, 100, 100⟩)] }
    ⟨"cached", 0, 100, 100⟩ (by decide)
  rw [h]
  decide

/-! Claim C4: the debounce timer and the batch-size cap. -/

/-- C4 counterexample: the claim states that an enqueue bringing the pending
set to `MAX_BATCH_SIZE = 20` keys triggers batch processing immediately,
without waiting out the 500 ms debounce window.  In the code
`scheduleQueueProcessing` never inspects the queue size: after twenty
enqueues at time 0 the queue holds all twenty records, no processing has
started (`isProcessingQueue` is still false, and processing only ever runs
from the debounce callback), and the single shared debounce deadline sits at
`0 + 500` — the twentieth enqueue merely reset it like every other enqueue. -/
theorem maxBatch_enqueue_no_immediate_flush :
    ((List.range 20).foldl
        (fun st i => (queueRefreshRequest "a" i i 0 st).1) initialState).refreshQueue.length
      = 20 ∧
    ((List.range 20).foldl
        (fun st i => (queueRefreshRequest "a" i i 0 st).1) initialState).isProcessingQueue
      = false ∧
    ((List.range 20).foldl
        (fun st i => (queueRefreshRequest "a" i i 0 st).1) initialState).queueProcessingTimeout
      = some 500 := by
  refine ⟨by decide, by decide, by decide⟩

/-- C4 amended: the shared debounce timer is reset to `now + 500` by every
enqueue that creates a fresh queue record, regardless of the pending-set
size; reaching 20 pending keys triggers nothing.  The constant 20 only caps
how many records one processing run takes: the batch request list is the
first `min 20 (queue length)` records. -/
theorem debounce_reset_amended (caseId : String) (imageIndex : Nat) (w : Nat) (now : Int)
    (s : ModuleState)
    (hq : mapGet s.refreshQueue (mkKey caseId imageIndex) = none)
    (ht : mapGet s.proactiveRefreshTimers (mkKey caseId imageIndex) = none)
    (hc : ∀ m, mapGet s.urlCache (mkKey caseId imageIndex) = some m → m.expiresAt ≤ now) :
    (queueRefreshRequest caseId imageIndex w now s).1.queueProcessingTimeout
      = some (now + 500) ∧
    ∀ s2 : ModuleState, (batchRequests s2).length = min 20 s2.refreshQueue.length := by
  constructor
  · rcases hmc : mapGet s.urlCache (mkKey caseId imageIndex) with _ | m
    · simp [queueRefreshRequest, queueRefreshRequestCore, hmc, hq, ht,
        scheduleQueueProcessing]
    · have hle : now ≥ m.expiresAt := hc m hmc
      simp [queueRefreshRequest, queueRefreshRequestCore, hmc, hq, ht, hle,
        scheduleQueueProcessing]
  · intro s2
    simp [batchRequests, List.length_take]

/-- Witness for `debounce_reset_amended` at the empty initial state. -/
theorem debounce_reset_amended_witness :
    (queueRefreshRequest "a" 0 7 3 initialState).1.queueProcessingTimeout = some (3 + 500) :=
  (debounce_reset_amended "a" 0 7 3 initialState (by decide) (by decide)
    (fun m hm => by simp [initialState, mapGet] at hm)).1

/-! Claim C1: deduplication in `queueRefreshRequest`. -/

/-- Shorthand for the state whose refresh queue gained or replaced one
binding; used to state facts about enqueueing. -/
def setQueue (s : ModuleState) (key : String) (q : QueuedRequest) : ModuleState :=
  { s with refreshQueue := mapSet s.refreshQueue key q }

/-- An enqueue on a key that already has a queue record only rewires the
record's continuation chain: the caller is appended as one more waiter and
nothing else in the state changes.  The cache hypothesis keeps the call on
the queueing path (entry absent or expired). -/
theorem queueRefreshRequest_attach (caseId : String) (imageIndex : Nat) (w : Nat)
    (now : Int) (s : ModuleState) (q : QueuedRequest)
    (hq : mapGet s.refreshQueue (mkKey caseId imageIndex) = some q)
    (hc : ∀ m, mapGet s.urlCache (mkKey caseId imageIndex) = some m → m.expiresAt ≤ now) :
    (queueRefreshRequest caseId imageIndex w now s).1 =
      setQueue s (mkKey caseId imageIndex) ({ q with waiters := q.waiters ++ [w] }) := by
  rcases hmc : mapGet s.urlCache (mkKey caseId imageIndex) with _ | m
  · simp [queueRefreshRequest, queueRefreshRequestCore, hmc, hq, setQueue]
  · have hle : now ≥ m.expiresAt := hc m hmc
    simp [queueRefreshRequest, queueRefreshRequestCore, hmc, hq, hle, setQueue]

/-- An enqueue on a key with no queue record and no armed proactive timer
creates a fresh record with a single waiter and arms the debounce timer. -/
theorem queueRefreshRequest_create (caseId : String) (imageIndex : Nat) (w : Nat)
    (now : Int) (s : ModuleState)
    (hq : mapGet s.refreshQueue (mkKey caseId imageIndex) = none)
    (ht : mapGet s.proactiveRefreshTimers (mkKey caseId imageIndex) = none)
    (hc : ∀ m, mapGet s.urlCache (mkKey caseId imageIndex) = some m → m.expiresAt ≤ now) :
    (queueRefreshRequest caseId imageIndex w now s).1 =
      scheduleQueueProcessing now
        (setQueue s (mkKey caseId imageIndex) ⟨caseId, imageIndex, [w], 0⟩) := by
  rcases hmc : mapGet s.urlCache (mkKey caseId imageIndex) with _ | m
  · simp [queueRefreshRequest, queueRefreshRequestCore, hmc, hq, ht, setQueue,
      scheduleQueueProcessing]
  · have hle : now ≥ m.expiresAt := hc m hmc
    simp [queueRefreshRequest, queueRefreshRequestCore, hmc, hq, ht, hle, setQueue,
      scheduleQueueProcessing]

/-- N callers issuing `refresh` on the same key, in sequence on the event
loop: the state after folding `queueRefreshRequest` over the waiter list. -/
def enqueueAll (caseId : String) (imageIndex : Nat) (now : Int) (ws : List Nat)
    (s : ModuleState) : ModuleState :=
  ws.foldl (fun st w2 => (queueRefreshRequest caseId imageIndex w2 now st).1) s

theorem enqueueAll_attach (caseId : String) (imageIndex : Nat) (now : Int) :
    ∀ (ws : List Nat) (s : ModuleState) (q : QueuedRequest),
    mapGet s.refreshQueue (mkKey caseId imageIndex) = some q →
    (∀ m, mapGet s.urlCache (mkKey caseId imageIndex) = some m → m.expiresAt ≤ now) →
    enqueueAll caseId imageIndex now ws s =
      setQueue s (mkKey caseId imageIndex) ({ q with waiters := q.waiters ++ ws }) := by
  intro ws
  induction ws with
  | nil =>
    intro s q hq hc
    have hqq : ({ q with waiters := q.waiters ++ [] } : QueuedRequest) = q := by simp
    rw [enqueueAll, List.foldl_nil, hqq, setQueue, mapSet_eq_of_mapGet _ _ _ hq]
  | cons w2 rest ih =>
    intro s q hq hc
    have hstep := queueRefreshRequest_attach caseId imageIndex w2 now s q hq hc
    have hget : mapGet ((queueRefreshRequest caseId imageIndex w2 now s).1).refreshQueue
        (mkKey caseId imageIndex) = some ({ q with waiters := q.waiters ++ [w2] }) := by
      rw [hstep]
      exact mapGet_mapSet_self _ _ _
    have hcache : ∀ m, mapGet ((queueRefreshRequest caseId imageIndex w2 now s).1).urlCache
        (mkKey caseId imageIndex) = some m → m.expiresAt ≤ now := by
      rw [hstep]
      exact hc
    have htail := ih ((queueRefreshRequest caseId imageIndex w2 now s).1)
      ({ q with waiters := q.waiters ++ [w2] }) hget hcache
    rw [enqueueAll] at htail ⊢
    rw [List.foldl_cons]
    rw [htail, hstep]
    simp [setQueue, mapSet_mapSet]

/-- C1: deduplication of refresh requests.  Under a key that is uncached or
expired, not pending, and without an armed proactive timer, a burst of
`N = 1 + |ws|` successive `refresh` calls yields exactly one queue record for
the key — carrying all N callers as waiters — the queue keys stay free of
duplicates, and when the queue started empty, the batch request list sent to
the backend holds exactly one entry for the key.  A call that finds an
existing record attaches its caller to it (`queueRefreshRequest_attach`,
used through `enqueueAll_attach`) instead of creating a second record. -/
theorem refreshQueue_dedup_invariant (caseId : String) (imageIndex : Nat) (now : Int)
    (w : Nat) (ws : List Nat) (s : ModuleState)
    (hq : mapGet s.refreshQueue (mkKey caseId imageIndex) = none)
    (ht : mapGet s.proactiveRefreshTimers (mkKey caseId imageIndex) = none)
    (hc : ∀ m, mapGet s.urlCache (mkKey caseId imageIndex) = some m → m.expiresAt ≤ now)
    (hnd : nodupKeys s.refreshQueue) :
    mapGet (enqueueAll caseId imageIndex now (w :: ws) s).refreshQueue
        (mkKey caseId imageIndex) = some ⟨caseId, imageIndex, w :: ws, 0⟩ ∧
    countKey (enqueueAll caseId imageIndex now (w :: ws) s).refreshQueue
        (mkKey caseId imageIndex) = 1 ∧
    nodupKeys (enqueueAll caseId imageIndex now (w :: ws) s).refreshQueue ∧
    (s.refreshQueue = [] →
      batchRequests (enqueueAll caseId imageIndex now (w :: ws) s)
        = [(caseId, imageIndex)]) := by
  have hstep := queueRefreshRequest_create caseId imageIndex w now s hq ht hc
  have hget : mapGet ((queueRefreshRequest caseId imageIndex w now s).1).refreshQueue
      (mkKey caseId imageIndex) = some ⟨caseId, imageIndex, [w], 0⟩ := by
    rw [hstep]
    exact mapGet_mapSet_self _ _ _
  have hcache : ∀ m, mapGet ((queueRefreshRequest caseId imageIndex w now s).1).urlCache
      (mkKey caseId imageIndex) = some m → m.expiresAt ≤ now := by
    rw [hstep]
    exact hc
  have htail := enqueueAll_attach caseId imageIndex now ws
    ((queueRefreshRequest caseId imageIndex w now s).1) ⟨caseId, imageIndex, [w], 0⟩
    hget hcache
  have hall : enqueueAll caseId imageIndex now (w :: ws) s =
      scheduleQueueProcessing now
        (setQueue s (mkKey caseId imageIndex) ⟨caseId, imageIndex, w :: ws, 0⟩) := by
    rw [enqueueAll] at htail ⊢
    rw [List.foldl_cons]
    rw [htail, hstep]
    simp [setQueue, scheduleQueueProcessing, mapSet_mapSet]
  refine ⟨?_, ?_, ?_, ?_⟩
  · rw [hall]
    exact mapGet_mapSet_self _ _ _
  · rw [hall]
    exact countKey_mapSet_of_absent _ _ _ hq
  · rw [hall]
    exact nodupKeys_mapSet _ _ _ hnd
  · intro hempty
    rw [hall]
    simp [batchRequests, scheduleQueueProcessing, setQueue, mapSet,
      mapSet_of_absent _ _ _ hq, hempty]

/-- Witness for `refreshQueue_dedup_invariant`: three concurrent
`refresh("a", 0)` calls from the idle initial state leave one queue record
with the three waiters and a one-entry batch. -/
theorem refreshQueue_dedup_invariant_witness :
    mapGet (enqueueAll "a" 0 0 [5, 6, 7] initialState).refreshQueue (mkKey "a" 0)
      = some ⟨"a", 0, [5, 6, 7], 0⟩ ∧
    countKey (enqueueAll "a" 0 0 [5, 6, 7] initialState).refreshQueue (mkKey "a" 0) = 1 ∧
    nodupKeys (enqueueAll "a" 0 0 [5, 6, 7] initialState).refreshQueue ∧
    batchRequests (enqueueAll "a" 0 0 [5, 6, 7] initialState) = [("a", 0)] := by
  have h := refreshQueue_dedup_invariant "a" 0 0 5 [6, 7] initialState (by decide) (by decide)
    (fun m hm => by simp [initialState, mapGet] at hm) (by simp [initialState, nodupKeys, mapKeys])
  exact ⟨h.1, h.2.1, h.2.2.1, h.2.2.2 (by decide)⟩

/-- When all four arming conditions hold, `scheduleProactiveRefresh` arms the
timer at `0.8 * remaining` (the 5000 ms floor is implied by
`remaining > 10000`). -/
theorem scheduleProactiveRefresh_arm (caseId : String) (imageIndex : Nat) (key : String)
    (now : Int) (s : ModuleState) (m : UrlMetadata)
    (hm : mapGet s.urlCache key = some m)
    (ht : mapGet s.proactiveRefreshTimers key = none)
    (hf : key ∉ s.proactiveRefreshScheduling)
    (h10 : 10000 < m.expiresAt - now) :
    scheduleProactiveRefresh caseId imageIndex key now s =
      (armTimer s key ⟨caseId, imageIndex, ((m.expiresAt : Rat) - (now : Rat)) * (4 / 5 : Rat)⟩,
       [Event.timerArmed key (((m.expiresAt : Rat) - (now : Rat)) * (4 / 5 : Rat))]) := by
  have h10r : (10000 : Rat) < (m.expiresAt : Rat) - (now : Rat) := by exact_mod_cast h10
  have h1b : ¬ (mapGet s.proactiveRefreshTimers key).isSome = true := by simp [ht]
  have h2b : ¬ m.expiresAt - now ≤ 10000 := not_le.mpr h10
  have h3b : ¬ ((m.expiresAt : Rat) - (now : Rat)) * (4 / 5 : Rat) < 5000 := by
    rw [not_lt]
    nlinarith
  simp only [scheduleProactiveRefresh, hm]
  rw [if_neg h1b, if_neg h2b]
  simp only [Int.cast_sub] at h3b ⊢
  rw [if_neg h3b, if_neg hf]
  rfl

/-! Claim C5: `scheduleProactiveRefresh` and the proactive timer. -/

/-- Shorthand for the state at the start of the proactive-timer callback:
the timer binding and the transient scheduling marker removed. -/
def clearTimer (s : ModuleState) (key : String) : ModuleState :=
  { s with proactiveRefreshTimers := mapDelete s.proactiveRefreshTimers key,
           proactiveRefreshScheduling := s.proactiveRefreshScheduling.erase key }

/-- C5 counterexample: the claim states that the armed timer, firing strictly
before the entry's expiry instant, enqueues a refresh request for the key.
Arming at `now = 0` over an entry expiring at 120000 yields delay 96000, and
the timer fires at 96000 — strictly before expiry, as claimed.  But the
callback's `queueRefreshRequest` call then finds the cache entry still valid
(`96000 < 120000`) and takes the valid-cache early return: it resolves the
promise with the cached URL and the refresh queue stays empty — no record is
created, no batch entry, no backend call.  Firing enqueues only when the
entry is expired or absent at fire time, which a fire strictly before expiry
never is. -/
theorem proactiveFire_before_expiry_no_enqueue :
    (scheduleProactiveRefresh "a" 0 "a-0" 0
        { initialState with urlCache := [("a-0", ⟨"u", 0, 120000, 120000⟩)] }).1
      = { initialState with
            urlCache := [("a-0", ⟨"u", 0, 120000, 120000⟩)],
            proactiveRefreshTimers := [("a-0", ⟨"a", 0, 96000⟩)] } ∧
    ((0 : Int) + 96000 < 120000) ∧
    (proactiveTimerFire "a-0" 9 96000
        { initialState with
            urlCache := [("a-0", ⟨"u", 0, 120000, 120000⟩)],
            proactiveRefreshTimers := [("a-0", ⟨"a", 0, 96000⟩)] }).1.refreshQueue = [] ∧
    (proactiveTimerFire "a-0" 9 96000
        { initialState with
            urlCache := [("a-0", ⟨"u", 0, 120000, 120000⟩)],
            proactiveRefreshTimers := [("a-0", ⟨"a", 0, 96000⟩)] }).2
      = [Event.resolved 9 (some "u")] := by
  refine ⟨?_, by decide, by decide, by decide⟩
  rw [scheduleProactiveRefresh_arm "a" 0 "a-0" 0
    { initialState with urlCache := [("a-0", ⟨"u", 0, 120000, 120000⟩)] }
    ⟨"u", 0, 120000, 120000⟩ (by decide) (by decide) (by simp [initialState]) (by decide)]
  simp [armTimer, mapSet, initialState]
  norm_num

/-- C5 amended: with a cache entry `m` for `key` and (as in every
sequentially reachable state) no transient scheduling marker,
`scheduleProactiveRefresh` arms a timer if and only if no timer already
exists, `remaining = m.expiresAt - now` exceeds 10000 ms, and
`0.8 * remaining` is at least 5000 ms; when it arms, the state gains exactly
the timer binding with delay `remaining * 4/5` and nothing else changes.
Without a cache entry nothing is ever armed.  The delay is strictly below
`remaining`, so the timer fires strictly before the expiry instant.  On
firing, the callback deletes its binding and calls `queueRefreshRequest`
with the captured arguments — but, contrary to the original claim, a fire
that finds the entry still valid (the normal before-expiry fire) resolves
with the cached URL and enqueues nothing; a queue record is created only
when at fire time the entry is expired or absent and the key is not already
queued. -/
theorem scheduleProactiveRefresh_spec (caseId : String) (imageIndex : Nat) (key : String)
    (now : Int) (s : ModuleState) (m : UrlMetadata)
    (hm : mapGet s.urlCache key = some m)
    (hf : key ∉ s.proactiveRefreshScheduling) :
    ((mapGet s.proactiveRefreshTimers key = none ∧ 10000 < m.expiresAt - now ∧
        5000 ≤ ((m.expiresAt : Rat) - (now : Rat)) * (4 / 5 : Rat)) →
      scheduleProactiveRefresh caseId imageIndex key now s =
        (armTimer s key ⟨caseId, imageIndex, ((m.expiresAt : Rat) - (now : Rat)) * (4 / 5 : Rat)⟩,
         [Event.timerArmed key (((m.expiresAt : Rat) - (now : Rat)) * (4 / 5 : Rat))])) ∧
    (¬ (mapGet s.proactiveRefreshTimers key = none ∧ 10000 < m.expiresAt - now ∧
        5000 ≤ ((m.expiresAt : Rat) - (now : Rat)) * (4 / 5 : Rat)) →
      scheduleProactiveRefresh caseId imageIndex key now s = (s, [])) ∧
    (10000 < m.expiresAt - now →
      5000 ≤ ((m.expiresAt : Rat) - (now : Rat)) * (4 / 5 : Rat) ∧
      (now : Rat) + ((m.expiresAt : Rat) - (now : Rat)) * (4 / 5 : Rat) < (m.expiresAt : Rat)) ∧
    (∀ s3 : ModuleState, mapGet s3.urlCache key = none →
      scheduleProactiveRefresh caseId imageIndex key now s3 = (s3, [])) ∧
    (∀ (s2 : ModuleState) (t : TimerRecord) (w : Nat) (now2 : Int) (m2 : UrlMetadata),
      mapGet s2.proactiveRefreshTimers key = some t →
      key = mkKey t.caseId t.imageIndex →
      mapGet s2.urlCache key = some m2 →
      now2 < m2.expiresAt →
      proactiveTimerFire key w now2 s2 =
        (clearTimer s2 key, [Event.resolved w (some m2.url)])) ∧
    (∀ (s2 : ModuleState) (t : TimerRecord) (w : Nat) (now2 : Int),
      mapGet s2.proactiveRefreshTimers key = some t →
      nodupKeys s2.proactiveRefreshTimers →
      key = mkKey t.caseId t.imageIndex →
      (∀ m2, mapGet s2.urlCache key = some m2 → m2.expiresAt ≤ now2) →
      mapGet s2.refreshQueue key = none →
      mapGet (proactiveTimerFire key w now2 s2).1.refreshQueue key =
        some ⟨t.caseId, t.imageIndex, [w], 0⟩) := by
  have hcast : (10000 : Rat) < (m.expiresAt : Rat) - (now : Rat) →
      5000 ≤ ((m.expiresAt : Rat) - (now : Rat)) * (4 / 5 : Rat) := by
    intro h
    nlinarith
  refine ⟨?_, ?_, ?_, ?_, ?_, ?_⟩
  · rintro ⟨h1, h2, h3⟩
    exact scheduleProactiveRefresh_arm caseId imageIndex key now s m hm h1 hf h2
  · intro hneg
    by_cases h1 : mapGet s.proactiveRefreshTimers key = none
    · by_cases h2 : 10000 < m.expiresAt - now
      · exact absurd ⟨h1, h2, hcast (by exact_mod_cast h2)⟩ hneg
      · have h2b : m.expiresAt - now ≤ 10000 := not_lt.mp h2
        simp [scheduleProactiveRefresh, hm, h1, h2b]
    · have h1b : (mapGet s.proactiveRefreshTimers key).isSome = true := by
        rcases hx : mapGet s.proactiveRefreshTimers key with _ | t
        · exact absurd hx h1
        · rfl
      simp [scheduleProactiveRefresh, h1b]
  · intro h2
    have h2r : (10000 : Rat) < (m.expiresAt : Rat) - (now : Rat) := by
      exact_mod_cast h2
    refine ⟨hcast h2r, ?_⟩
    nlinarith
  · intro s3 h3
    rcases hx : mapGet s3.proactiveRefreshTimers key with _ | t
    · simp [scheduleProactiveRefresh, hx, h3]
    · simp [scheduleProactiveRefresh, hx]
  · intro s2 t w now2 m2 htm hk hm2 hlt
    have hge : ¬ now2 ≥ m2.expiresAt := not_le.mpr hlt
    rw [proactiveTimerFire, htm]
    simp only [queueRefreshRequest, ← hk, hm2]
    rw [if_neg hge]
    simp [clearTimer]
  · intro s2 t w now2 htm hnd hk hc2 hq2
    have hdel : mapGet (mapDelete s2.proactiveRefreshTimers key) key = none :=
      mapGet_mapDelete_self _ _ hnd
    rw [proactiveTimerFire, htm]
    rcases hmc : mapGet s2.urlCache key with _ | m2
    · simp only [queueRefreshRequest, queueRefreshRequestCore, ← hk, hmc, hq2, hdel,
        scheduleQueueProcessing]
      simp [mapGet_mapSet_self]
    · have hle : now2 ≥ m2.expiresAt := hc2 m2 hmc
      simp only [queueRefreshRequest, queueRefreshRequestCore, ← hk, hmc, hq2, hdel,
        scheduleQueueProcessing]
      simp [hle, mapGet_mapSet_self]

/-- Witness for `scheduleProactiveRefresh_spec`: an entry with 120000 ms of
lifetime left arms a timer with delay 96000 ms; a fire at 96000 — before the
120000 expiry — resolves with the cached URL and enqueues nothing, while a
fire at 130000 (entry expired by then) creates the queue record. -/
theorem scheduleProactiveRefresh_spec_witness :
    (scheduleProactiveRefresh "a" 0 "a-0" 0
        { initialState with urlCache := [("a-0", ⟨"u", 0, 120000, 120000⟩)] } =
      (armTimer { initialState with urlCache := [("a-0", ⟨"u", 0, 120000, 120000⟩)] }
         "a-0" ⟨"a", 0, (((120000 : Int) : Rat) - ((0 : Int) : Rat)) * (4 / 5 : Rat)⟩,
       [Event.timerArmed "a-0" ((((120000 : Int) : Rat) - ((0 : Int) : Rat)) * (4 / 5 : Rat))])) ∧
    (proactiveTimerFire "a-0" 9 96000
        { initialState with
            urlCache := [("a-0", ⟨"u", 0, 120000, 120000⟩)],
            proactiveRefreshTimers := [("a-0", ⟨"a", 0, 96000⟩)] } =
      (clearTimer
        { initialState with
            urlCache := [("a-0", ⟨"u", 0, 120000, 120000⟩)],
            proactiveRefreshTimers := [("a-0", ⟨"a", 0, 96000⟩)] } "a-0",
       [Event.resolved 9 (some "u")])) ∧
    mapGet (proactiveTimerFire "a-0" 9 130000
        { initialState with
            urlCache := [("a-0", ⟨"u", 0, 120000, 120000⟩)],
            proactiveRefreshTimers := [("a-0", ⟨"a", 0, 96000⟩)] }).1.refreshQueue "a-0"
      = some ⟨"a", 0, [9], 0⟩ := by
  have h := scheduleProactiveRefresh_spec "a" 0 "a-0" 0
    { initialState with urlCache := [("a-0", ⟨"u", 0, 120000, 120000⟩)] }
    ⟨"u", 0, 120000, 120000⟩ (by decide) (by simp [initialState])
  refine ⟨h.1 ⟨by decide, by decide, by norm_num⟩, ?_, ?_⟩
  · exact h.2.2.2.2.1
      { initialState with
          urlCache := [("a-0", ⟨"u", 0, 120000, 120000⟩)],
          proactiveRefreshTimers := [("a-0", ⟨"a", 0, 96000⟩)] }
      ⟨"a", 0, 96000⟩ 9 96000 ⟨"u", 0, 120000, 120000⟩ rfl (by decide) (by decide) (by decide)
  · exact h.2.2.2.2.2
      { initialState with
          urlCache := [("a-0", ⟨"u", 0, 120000, 120000⟩)],
          proactiveRefreshTimers := [("a-0", ⟨"a", 0, 96000⟩)] }
      ⟨"a", 0, 96000⟩ 9 130000 rfl
      (by simp [nodupKeys, mapKeys]) (by decide)
      (fun m2 hm2 => by
        rw [show m2 = ⟨"u", 0, 120000, 120000⟩ from (Option.some.inj hm2).symm]
        decide)
      (by decide)

/-! Claim C3: retry policy on failed refreshes. -/

/-- Firing of the debounce (or continuation) timeout: the callback clears the
timeout handle, resets the processing flag where applicable, and runs
`processRefreshQueue` with the outcome of the awaited backend call. -/
def refreshRound (urlQuery : String → Option (List (String × String))) (now : Int)
    (result : BackendResult) (s : ModuleState) : ModuleState × List Event :=
  processRefreshQueue urlQuery now result
    { s with isProcessingQueue := false, queueProcessingTimeout := none }

/-- Shorthand for the queue/flag/timeout part of a state after a processing
run; used to state facts about `processRefreshQueue`. -/
def roundState (s : ModuleState) (q : List (String × QueuedRequest)) (flag : Bool)
    (deadline : Option Int) : ModuleState :=
  { s with refreshQueue := q, isProcessingQueue := flag, queueProcessingTimeout := deadline }

/-- C3 counterexample: the claim states that a transport-wide batch failure
applies the same retry policy as a per-key `success: false` result — a key
with retry counter 0 should be re-enqueued with counter 1.  In the code the
`catch` block rejects and deletes every record of the current batch
unconditionally: a single queued key with `retries = 0` is dropped from the
queue and its waiter rejected on the very first transport failure. -/
theorem transportFailure_rejects_without_retry :
    (processRefreshQueue (fun _ => none) 0 BackendResult.failure
        { initialState with refreshQueue := [("a-0", ⟨"a", 0, [7], 0⟩)] }).1.refreshQueue
      = [] ∧
    (processRefreshQueue (fun _ => none) 0 BackendResult.failure
        { initialState with refreshQueue := [("a-0", ⟨"a", 0, [7], 0⟩)] }).2
      = [Event.batchRequest [("a", 0)], Event.rejected 7 "Unknown error"] := by
  refine ⟨by decide, by decide⟩

/-- C3 amended: the two failure kinds are handled differently.  A per-key
`success: false` response follows the retry policy: the record is kept (under
the same key, re-entering the next batch) with its counter bumped while
`retries < 2`, and its waiters are rejected — with the record dropped — on
the failure that finds `retries = 2`, i.e. on the `maxRetries + 1 = 3`rd
consecutive failure, as the chained three rounds show.  A transport-wide
failure (rejected fetch, non-ok status, invalid body) instead rejects and
drops every record of the current batch immediately, regardless of the retry
counters (the modelled message `Unknown error` stands for the thrown error's
message).  Keys beyond the batch stay queued and are retried by the
restarted timer. -/
theorem refresh_retry_policy_amended
    (urlQuery : String → Option (List (String × String))) (now : Int)
    (caseId : String) (imageIndex : Nat) (ws : List Nat) (r : Nat) (s : ModuleState)
    (hqq : s.refreshQueue = [(mkKey caseId imageIndex, ⟨caseId, imageIndex, ws, r⟩)]) :
    (r < 2 →
      refreshRound urlQuery now
          (BackendResult.ok none [⟨caseId, imageIndex, false, none, none⟩]) s =
        (roundState s [(mkKey caseId imageIndex, ⟨caseId, imageIndex, ws, r + 1⟩)]
           true (some (now + 500)),
         [Event.batchRequest [(caseId, imageIndex)]])) ∧
    (2 ≤ r →
      refreshRound urlQuery now
          (BackendResult.ok none [⟨caseId, imageIndex, false, none, none⟩]) s =
        (roundState s [] false none,
         Event.batchRequest [(caseId, imageIndex)] ::
           ws.map fun w2 => Event.rejected w2 "Failed to refresh URL after retries")) ∧
    (refreshRound urlQuery now BackendResult.failure s =
      (roundState s [] false none,
       Event.batchRequest [(caseId, imageIndex)] ::
         ws.map fun w2 => Event.rejected w2 "Unknown error")) ∧
    (r = 0 →
      ((refreshRound urlQuery now
          (BackendResult.ok none [⟨caseId, imageIndex, false, none, none⟩])
          ((refreshRound urlQuery now
            (BackendResult.ok none [⟨caseId, imageIndex, false, none, none⟩]) s).1)).1.refreshQueue
        = [(mkKey caseId imageIndex, ⟨caseId, imageIndex, ws, 2⟩)] ∧
      refreshRound urlQuery now
          (BackendResult.ok none [⟨caseId, imageIndex, false, none, none⟩])
          ((refreshRound urlQuery now
            (BackendResult.ok none [⟨caseId, imageIndex, false, none, none⟩])
            ((refreshRound urlQuery now
              (BackendResult.ok none [⟨caseId, imageIndex, false, none, none⟩]) s).1)).1) =
        (roundState s [] false none,
         Event.batchRequest [(caseId, imageIndex)] ::
           ws.map fun w2 => Event.rejected w2 "Failed to refresh URL after retries"))) := by
  have hstep : ∀ (s2 : ModuleState) (ws2 : List Nat) (r2 : Nat),
      s2.refreshQueue = [(mkKey caseId imageIndex, ⟨caseId, imageIndex, ws2, r2⟩)] →
      (r2 < 2 →
        refreshRound urlQuery now
            (BackendResult.ok none [⟨caseId, imageIndex, false, none, none⟩]) s2 =
          (roundState s2 [(mkKey caseId imageIndex, ⟨caseId, imageIndex, ws2, r2 + 1⟩)]
             true (some (now + 500)),
           [Event.batchRequest [(caseId, imageIndex)]])) ∧
      (2 ≤ r2 →
        refreshRound urlQuery now
            (BackendResult.ok none [⟨caseId, imageIndex, false, none, none⟩]) s2 =
          (roundState s2 [] false none,
           Event.batchRequest [(caseId, imageIndex)] ::
             ws2.map fun w2 => Event.rejected w2 "Failed to refresh URL after retries")) := by
    intro s2 ws2 r2 h2
    obtain ⟨sc, sq, st, ss, sto, sp, se, sl⟩ := s2
    simp only at h2
    subst h2
    constructor
    · intro hr
      simp [refreshRound, processRefreshQueue, processResponse, successUrl, batchRequests,
        roundState, mapGet, mapSet, mapDelete, hr]
    · intro hr
      have hr2 : ¬ r2 < 2 := not_lt.mpr hr
      simp [refreshRound, processRefreshQueue, processResponse, successUrl, batchRequests,
        roundState, mapGet, mapSet, mapDelete, hr2]
  have hfail : refreshRound urlQuery now BackendResult.failure s =
      (roundState s [] false none,
       Event.batchRequest [(caseId, imageIndex)] ::
         ws.map fun w2 => Event.rejected w2 "Unknown error") := by
    obtain ⟨sc, sq, st, ss, sto, sp, se, sl⟩ := s
    simp only at hqq
    subst hqq
    simp [refreshRound, processRefreshQueue, batchRequests, roundState,
      mapGet, mapSet, mapDelete]
  have h0 := hstep s ws r hqq
  refine ⟨h0.1, h0.2, hfail, ?_⟩
  intro hr0
  subst hr0
  have h1 := (h0.1 (by norm_num))
  have hq1 : ((refreshRound urlQuery now
      (BackendResult.ok none [⟨caseId, imageIndex, false, none, none⟩]) s).1).refreshQueue
      = [(mkKey caseId imageIndex, ⟨caseId, imageIndex, ws, 1⟩)] := by
    rw [h1]
    simp [roundState]
  have h2 := hstep _ ws 1 hq1
  have h2a := h2.1 (by norm_num)
  have hq2 : ((refreshRound urlQuery now
      (BackendResult.ok none [⟨caseId, imageIndex, false, none, none⟩])
      ((refreshRound urlQuery now
        (BackendResult.ok none [⟨caseId, imageIndex, false, none, none⟩]) s).1)).1).refreshQueue
      = [(mkKey caseId imageIndex, ⟨caseId, imageIndex, ws, 2⟩)] := by
    rw [h2a]
    simp [roundState]
  have h3 := hstep _ ws 2 hq2
  have h3b := h3.2 (by norm_num)
  refine ⟨hq2, ?_⟩
  rw [h3b, h2a, h1]
  simp [roundState]

/-- Witness for `refresh_retry_policy_amended`: a single queued key with one
waiter and retry counter 2; the per-key failure path rejects the waiter. -/
theorem refresh_retry_policy_amended_witness :
    refreshRound (fun _ => none) 0 (BackendResult.ok none [⟨"a", 0, false, none, none⟩])
        { initialState with refreshQueue := [("a-0", ⟨"a", 0, [7], 2⟩)] } =
      (roundState { initialState with refreshQueue := [("a-0", ⟨"a", 0, [7], 2⟩)] } [] false none,
       Event.batchRequest [("a", 0)] ::
         [7].map fun w2 => Event.rejected w2 "Failed to refresh URL after retries") := by
  have h := refresh_retry_policy_amended (fun _ => none) 0 "a" 0 [7] 2
    { initialState with refreshQueue := [("a-0", ⟨"a", 0, [7], 2⟩)] } (by decide)
  exact h.2.1 (by norm_num)

/-! Claim C7: `getUrl` seeding when no entry exists. -/

/-- The timer binding present after an arming `scheduleProactiveRefresh`. -/
theorem scheduleProactiveRefresh_arm_get (caseId : String) (imageIndex : Nat) (key : String)
    (now : Int) (s : ModuleState) (m : UrlMetadata)
    (hm : mapGet s.urlCache key = some m)
    (ht : mapGet s.proactiveRefreshTimers key = none)
    (hf : key ∉ s.proactiveRefreshScheduling)
    (h10 : 10000 < m.expiresAt - now) :
    mapGet (scheduleProactiveRefresh caseId imageIndex key now s).1.proactiveRefreshTimers key
      = some ⟨caseId, imageIndex, ((m.expiresAt : Rat) - (now : Rat)) * (4 / 5 : Rat)⟩ := by
  rw [scheduleProactiveRefresh_arm caseId imageIndex key now s m hm ht hf h10]
  simp only [armTimer]
  exact mapGet_mapSet_self _ _ _

/-- The parse-failure seeding path of `getUrl`: with a positive module-wide
`expirySeconds`, the entry is stored with the fallback TTL measured from
`now` and the fallback URL is returned.  (Shared by the C7 and C10
developments.) -/
theorem getUrl_seed_parseFail (urlQuery : String → Option (List (String × String)))
    (caseId : String) (imageIndex : Nat) (originalUrl : String) (now : Int)
    (s : ModuleState)
    (hnone : mapGet s.urlCache (mkKey caseId imageIndex) = none)
    (hparse : parseExpirationFromPresignedUrl (urlQuery originalUrl) now = none)
    (hpos : 0 < s.expirySeconds) :
    (getUrl urlQuery caseId imageIndex originalUrl now s).1 = originalUrl ∧
    mapGet (getUrl urlQuery caseId imageIndex originalUrl now s).2.1.urlCache
        (mkKey caseId imageIndex)
      = some ⟨originalUrl, now, s.expirySeconds * 1000, now + s.expirySeconds * 1000⟩ := by
  have hgt : now < now + s.expirySeconds * 1000 := by
    have h0 : (0 : Int) < s.expirySeconds * 1000 := by positivity
    linarith
  constructor
  · simp only [getUrl, hnone, hparse, Option.map_none', Option.getD_none]
    rw [if_pos (Or.inl hgt), if_neg (not_le.mpr hgt)]
    split <;> rfl
  · simp only [getUrl, hnone, hparse, Option.map_none', Option.getD_none]
    rw [if_pos (Or.inl hgt), if_neg (not_le.mpr hgt)]
    split
    · rw [scheduleProactiveRefresh_urlCache]
      exact mapGet_mapSet_self _ _ _
    · exact mapGet_mapSet_self _ _ _

/-- C7 counterexample: the claim states that seeding happens even when the
parsed expiry of the fallback URL is already past.  With a URL signed at the
epoch for 60 s (`expiresAt = 60000`) read at `now = 1000000`, the guard
`expiresAt > now || expiresIn > 0` is false (`expiresIn` is clamped to 0), so
`getUrl` stores nothing, arms nothing, schedules nothing, and just returns
the fallback URL: the state is exactly the initial state. -/
theorem getUrl_seed_expired_not_stored :
    getUrl (fun _ => some [("X-Amz-Date", "19700101T000000Z"), ("X-Amz-Expires", "60")])
      "a" 0 "u" 1000000 initialState = ("u", initialState, []) := by decide

/-- C7 amended: when no entry exists for the key, `getUrl` behaves by cases
on the parse of `fallbackURL`.  Parse failure: an entry with
`expiresAt = now + expirySeconds * 1000` is stored and the fallback URL
returned.  Parse success with a future expiry: the parsed entry is stored,
the fallback URL returned, and the proactive timer armed exactly when more
than 10000 ms remain (not merely when the entry is unexpired) — with delay
`0.8 * remaining`.  Parse success with an expiry already past: contrary to
the claim, nothing is stored and nothing is scheduled; the call returns the
fallback URL with the state untouched. -/
theorem getUrl_seed_amended (urlQuery : String → Option (List (String × String)))
    (caseId : String) (imageIndex : Nat) (originalUrl : String) (now : Int)
    (s : ModuleState)
    (hnone : mapGet s.urlCache (mkKey caseId imageIndex) = none) :
    (parseExpirationFromPresignedUrl (urlQuery originalUrl) now = none →
      0 < s.expirySeconds →
      (getUrl urlQuery caseId imageIndex originalUrl now s).1 = originalUrl ∧
      mapGet (getUrl urlQuery caseId imageIndex originalUrl now s).2.1.urlCache
          (mkKey caseId imageIndex)
        = some ⟨originalUrl, now, s.expirySeconds * 1000, now + s.expirySeconds * 1000⟩) ∧
    (∀ p : ParsedExpiration,
      parseExpirationFromPresignedUrl (urlQuery originalUrl) now = some p →
      p.expiresAt ≤ now →
      getUrl urlQuery caseId imageIndex originalUrl now s = (originalUrl, s, [])) ∧
    (∀ p : ParsedExpiration,
      parseExpirationFromPresignedUrl (urlQuery originalUrl) now = some p →
      now < p.expiresAt →
      (getUrl urlQuery caseId imageIndex originalUrl now s).1 = originalUrl ∧
      (getUrl urlQuery caseId imageIndex originalUrl now s).2.1.urlCache
        = mapSet s.urlCache (mkKey caseId imageIndex)
            ⟨originalUrl, now, p.expiresIn, p.expiresAt⟩ ∧
      (p.expiresAt - now ≤ 10000 →
        (getUrl urlQuery caseId imageIndex originalUrl now s).2.1.proactiveRefreshTimers
          = s.proactiveRefreshTimers) ∧
      (10000 < p.expiresAt - now →
        mapGet s.proactiveRefreshTimers (mkKey caseId imageIndex) = none →
        mkKey caseId imageIndex ∉ s.proactiveRefreshScheduling →
        mapGet (getUrl urlQuery caseId imageIndex originalUrl now s).2.1.proactiveRefreshTimers
            (mkKey caseId imageIndex)
          = some ⟨caseId, imageIndex, ((p.expiresAt : Rat) - (now : Rat)) * (4 / 5 : Rat)⟩)) := by
  refine ⟨fun hparse hpos => getUrl_seed_parseFail urlQuery caseId imageIndex originalUrl
    now s hnone hparse hpos, ?_, ?_⟩
  · intro p hp hle
    have hin : p.expiresIn = 0 := by
      rw [parseExpiration_expiresIn_eq _ _ _ hp]
      exact max_eq_left (by linarith)
    simp only [getUrl, hnone, hp, Option.map_some', Option.getD_some]
    rw [if_neg]
    rintro (hgt | hgt)
    · exact absurd hgt (not_lt.mpr hle)
    · rw [hin] at hgt
      exact lt_irrefl 0 hgt
  · intro p hp hlt
    simp only [getUrl, hnone, hp, Option.map_some', Option.getD_some]
    rw [if_pos (Or.inl hlt), if_neg (not_le.mpr hlt)]
    refine ⟨?_, ?_, ?_, ?_⟩
    · split <;> rfl
    · split
      · rw [scheduleProactiveRefresh_urlCache]
      · rfl
    · intro h10
      rw [if_neg]
      rintro ⟨hcon, _⟩
      exact absurd hcon (not_lt.mpr h10)
    · intro h10 ht hf
      rw [if_pos ⟨h10, by simp [ht]⟩]
      exact scheduleProactiveRefresh_arm_get caseId imageIndex (mkKey caseId imageIndex) now _
        ⟨originalUrl, now, p.expiresIn, p.expiresAt⟩ (mapGet_mapSet_self _ _ _) ht hf h10

/-- Witness for `getUrl_seed_amended`: seeding with an unparseable URL at
`now = 5` stores the 180 s fallback entry. -/
theorem getUrl_seed_amended_witness :
    mapGet (getUrl (fun _ => none) "a" 0 "u" 5 initialState).2.1.urlCache (mkKey "a" 0)
      = some ⟨"u", 5, 180000, 180005⟩ :=
  ((getUrl_seed_amended (fun _ => none) "a" 0 "u" 5 initialState (by decide)).1
    rfl (by decide)).2

/-! Claim C8: which cache writes publish to listeners. -/

/-- A successful per-key batch response delivers the update to every
currently subscribed listener. -/
theorem processResponse_publishes (urlQuery : String → Option (List (String × String)))
    (now : Int) (resp : RefreshResponse) (s : ModuleState) (queued : QueuedRequest)
    (u : String)
    (hq : mapGet s.refreshQueue (mkKey resp.caseId resp.imageIndex) = some queued)
    (hu : successUrl resp = some u) :
    ∀ l ∈ s.urlUpdateListeners,
      Event.listenerNotified l (mkKey resp.caseId resp.imageIndex) u
        ∈ (processResponse urlQuery now resp s).2 := by
  intro l hl
  simp only [processResponse, hq, hu]
  refine List.mem_append_left _ (List.mem_append_right _ ?_)
  simp only [notifyUrlUpdate]
  exact List.mem_map_of_mem _ hl

/-- The proactive-timer success continuation delivers the update to every
currently subscribed listener. -/
theorem proactiveFireSuccess_publishes (urlQuery : String → Option (List (String × String)))
    (caseId : String) (imageIndex : Nat) (key newUrl : String) (now : Int)
    (s : ModuleState) :
    ∀ l ∈ s.urlUpdateListeners,
      Event.listenerNotified l key newUrl
        ∈ (proactiveFireSuccess urlQuery caseId imageIndex key newUrl now s).2 := by
  intro l hl
  simp only [proactiveFireSuccess]
  refine List.mem_append_right _ ?_
  simp only [notifyUrlUpdate]
  exact List.mem_map_of_mem _ hl

/-- C8 counterexample: the claim states that every replacement of a key's
cache entry — including the initial seeding performed by `get` — publishes
`(key, url)` to every subscribed listener.  With one subscribed listener, a
seeding `getUrl` call that stores a fresh entry (epoch-signed URL, 8000 ms of
lifetime left, so no timer business either) emits no event at all: the
seeding write never calls `notifyUrlUpdate`. -/
theorem getUrl_seed_no_publish :
    (getUrl (fun _ => some [("X-Amz-Date", "19700101T000000Z"), ("X-Amz-Expires", "60")])
        "a" 0 "u" 52000
        { initialState with urlUpdateListeners := [0] }).2.1.urlCache
      = [("a-0", ⟨"u", 52000, 8000, 60000⟩)] ∧
    (getUrl (fun _ => some [("X-Amz-Date", "19700101T000000Z"), ("X-Amz-Expires", "60")])
        "a" 0 "u" 52000
        { initialState with urlUpdateListeners := [0] }).2.2
      = [] := by
  refine ⟨by decide, by decide⟩

/-- C8 amended: the cache writes performed by the two refresh success paths —
the batch-response loop and the proactive-timer continuation — publish the
`(key, url)` update to every currently subscribed listener, but the initial
seeding write performed by `getUrl` does not publish: no `getUrl` call ever
emits a listener notification. -/
theorem publish_on_refresh_puts_amended :
    (∀ (urlQuery : String → Option (List (String × String))) (now : Int)
        (resp : RefreshResponse) (s : ModuleState) (queued : QueuedRequest) (u : String),
      mapGet s.refreshQueue (mkKey resp.caseId resp.imageIndex) = some queued →
      successUrl resp = some u →
      ∀ l ∈ s.urlUpdateListeners,
        Event.listenerNotified l (mkKey resp.caseId resp.imageIndex) u
          ∈ (processResponse urlQuery now resp s).2) ∧
    (∀ (urlQuery : String → Option (List (String × String))) (caseId : String)
        (imageIndex : Nat) (key newUrl : String) (now : Int) (s : ModuleState),
      ∀ l ∈ s.urlUpdateListeners,
        Event.listenerNotified l key newUrl
          ∈ (proactiveFireSuccess urlQuery caseId imageIndex key newUrl now s).2) ∧
    (∀ (urlQuery : String → Option (List (String × String))) (caseId : String)
        (imageIndex : Nat) (originalUrl : String) (now : Int) (s : ModuleState),
      ∀ e ∈ (getUrl urlQuery caseId imageIndex originalUrl now s).2.2,
        ∀ (l : Nat) (k2 u2 : String), e ≠ Event.listenerNotified l k2 u2) := by
  refine ⟨processResponse_publishes, proactiveFireSuccess_publishes, ?_⟩
  intro urlQuery caseId imageIndex originalUrl now s e he l k2 u2
  rcases hmc : mapGet s.urlCache (mkKey caseId imageIndex) with _ | m
  · simp only [getUrl, hmc] at he
    split at he
    · split at he
      · split at he
        · simp at he
          rw [he]
          simp
        · simp at he
      · split at he
        · rcases scheduleProactiveRefresh_events _ _ _ _ _ e he with ⟨k3, d3, rfl⟩
          simp
        · simp at he
    · simp at he
  · simp only [getUrl, hmc] at he
    split at he
    · split at he
      · simp at he
        rw [he]
        simp
      · simp at he
    · simp at he

/-- Witness for `publish_on_refresh_puts_amended`: a concrete successful
response for key `a-0` with one subscribed listener `0` delivers the
notification. -/
theorem publish_on_refresh_puts_amended_witness :
    Event.listenerNotified 0 (mkKey "a" 0) "new"
      ∈ (processResponse (fun _ => none) 7 ⟨"a", 0, true, some "new", none⟩
          { initialState with refreshQueue := [("a-0", ⟨"a", 0, [3], 0⟩)],
                              urlUpdateListeners := [0] }).2 :=
  publish_on_refresh_puts_amended.1 (fun _ => none) 7 ⟨"a", 0, true, some "new", none⟩
    { initialState with refreshQueue := [("a-0", ⟨"a", 0, [3], 0⟩)],
                        urlUpdateListeners := [0] }
    ⟨"a", 0, [3], 0⟩ "new" (by decide) (by decide) 0 (by decide)

/-! Claim C9: expiry bound after a successful refresh. -/

/-- The cache entry written by a successful per-key batch response: the
refreshed URL with the re-parsed expiry, falling back to the module-wide
`expirySeconds` when parsing fails.  (Shared by the C9 and C10
developments.) -/
theorem processResponse_success_store (urlQuery : String → Option (List (String × String)))
    (now : Int) (resp : RefreshResponse) (s : ModuleState) (queued : QueuedRequest)
    (u : String)
    (hq : mapGet s.refreshQueue (mkKey resp.caseId resp.imageIndex) = some queued)
    (hu : successUrl resp = some u) :
    mapGet (processResponse urlQuery now resp s).1.urlCache (mkKey resp.caseId resp.imageIndex)
      = some ⟨u, now,
          (Option.map ParsedExpiration.expiresIn
            (parseExpirationFromPresignedUrl (urlQuery u) now)).getD (s.expirySeconds * 1000),
          (Option.map ParsedExpiration.expiresAt
            (parseExpirationFromPresignedUrl (urlQuery u) now)).getD
              (now + s.expirySeconds * 1000)⟩ := by
  simp only [processResponse, hq, hu]
  simp [scheduleProactiveRefresh_urlCache, mapGet_mapSet_self]

/-- C9 counterexample: the claim requires `newEntry.expiresAt ≥
oldEntry.createdAt` for every successful refresh.  A batch response whose
fresh URL parses to an epoch-era expiry (`expiresAt = 60000`) replaces an
entry created at `createdAt = 1000000`: the parsed value is stored as-is and
`60000 < 1000000`. -/
theorem refresh_expiry_regression :
    mapGet (processRefreshQueue
        (fun _ => some [("X-Amz-Date", "19700101T000000Z"), ("X-Amz-Expires", "60")])
        2000000 (BackendResult.ok none [⟨"a", 0, true, some "new", none⟩])
        { initialState with
            urlCache := [("a-0", ⟨"old", 1000000, 0, 1000000⟩)],
            refreshQueue := [("a-0", ⟨"a", 0, [3], 0⟩)] }).1.urlCache "a-0"
      = some ⟨"new", 2000000, 0, 60000⟩ ∧ (60000 : Int) < 1000000 := by
  refine ⟨by decide, by decide⟩

/-- C9 amended: after a successful refresh of a key with an existing entry,
`newEntry.expiresAt ≥ oldEntry.createdAt` holds whenever the new URL's
expiry fails to parse (the fallback `now + expirySeconds * 1000` is at least
`now`, which is at least the old `createdAt`), or the parsed expiry itself is
at least `oldEntry.createdAt`.  The code imposes no check of its own: a
parsed expiry is stored as-is (spec §3 acknowledges this acceptance), so the
bound can fail when the backend returns a URL whose signature implies an
expiry before the old entry's creation — see the counterexample. -/
theorem refresh_expiry_bound_amended (urlQuery : String → Option (List (String × String)))
    (now : Int) (resp : RefreshResponse) (s : ModuleState) (old : UrlMetadata)
    (queued : QueuedRequest) (u : String)
    (_hold : mapGet s.urlCache (mkKey resp.caseId resp.imageIndex) = some old)
    (hq : mapGet s.refreshQueue (mkKey resp.caseId resp.imageIndex) = some queued)
    (hu : successUrl resp = some u)
    (hnow : old.createdAt ≤ now)
    (hpos : 0 < s.expirySeconds)
    (hp : parseExpirationFromPresignedUrl (urlQuery u) now = none ∨
      ∃ p : ParsedExpiration, parseExpirationFromPresignedUrl (urlQuery u) now = some p ∧
        old.createdAt ≤ p.expiresAt) :
    ∃ newEntry : UrlMetadata,
      mapGet (processResponse urlQuery now resp s).1.urlCache
          (mkKey resp.caseId resp.imageIndex) = some newEntry ∧
      newEntry.url = u ∧ old.createdAt ≤ newEntry.expiresAt := by
  refine ⟨_, processResponse_success_store urlQuery now resp s queued u hq hu, rfl, ?_⟩
  rcases hp with hnone2 | ⟨p, hpp, hle⟩
  · dsimp only
    rw [hnone2, Option.map_none', Option.getD_none]
    have h0 : (0 : Int) < s.expirySeconds * 1000 := by positivity
    linarith
  · dsimp only
    rw [hpp, Option.map_some', Option.getD_some]
    exact hle

/-- Witness for `refresh_expiry_bound_amended`: an unparseable refreshed URL
replaces an entry created at 10, at `now = 20`, with `expirySeconds = 180`:
the new expiry `20 + 180000` is at least 10. -/
theorem refresh_expiry_bound_amended_witness :
    ∃ newEntry : UrlMetadata,
      mapGet (processResponse (fun _ => none) 20 ⟨"a", 0, true, some "new", none⟩
          { initialState with
              urlCache := [("a-0", ⟨"old", 10, 0, 50⟩)],
              refreshQueue := [("a-0", ⟨"a", 0, [3], 0⟩)] }).1.urlCache
        (mkKey "a" 0) = some newEntry ∧
      newEntry.url = "new" ∧ (10 : Int) ≤ newEntry.expiresAt :=
  refresh_expiry_bound_amended (fun _ => none) 20 ⟨"a", 0, true, some "new", none⟩
    { initialState with
        urlCache := [("a-0", ⟨"old", 10, 0, 50⟩)],
        refreshQueue := [("a-0", ⟨"a", 0, [3], 0⟩)] }
    ⟨"old", 10, 0, 50⟩ ⟨"a", 0, [3], 0⟩ "new"
    (by decide) (by decide) (by decide) (by decide) (by decide) (Or.inl rfl)

/-! Claim C10: the shared mutable `expirySeconds` fallback. -/

/-- The per-response loop never writes `expirySeconds`. -/
theorem processResponse_expirySeconds (urlQuery : String → Option (List (String × String)))
    (now : Int) (resp : RefreshResponse) (s : ModuleState) :
    (processResponse urlQuery now resp s).1.expirySeconds = s.expirySeconds := by
  rcases hq : mapGet s.refreshQueue (mkKey resp.caseId resp.imageIndex) with _ | queued
  · simp [processResponse, hq]
  · rcases hu : successUrl resp with _ | u
    · simp only [processResponse, hq, hu]
      split <;> rfl
    · simp only [processResponse, hq, hu]
      simp [scheduleProactiveRefresh_expirySeconds]

/-- C10: the default TTL used when URL expiry parsing fails is the single
module-wide mutable `expirySeconds`.  It starts at 180; a processed batch
response carrying a positive numeric `expirySeconds` field overwrites it (a
non-positive one is ignored, and the response loop itself never writes it);
and all three parse-failure fallback sites read the current value: the
seeding in `getUrl`, the batch-response store, and the proactive-timer
success store all compute `expiresAt = now + expirySeconds * 1000`.
Consequently — last conjunct — after a batch refresh of one key delivers a
positive `expirySeconds` `e`, a later `getUrl` seeding of a different,
uncached key with an unparseable URL stores `expiresAt = now2 + e * 1000`. -/
theorem expirySeconds_shared_fallback :
    initialState.expirySeconds = 180 ∧
    (∀ (urlQuery : String → Option (List (String × String))) (now e : Int)
        (data : List RefreshResponse) (s : ModuleState),
      s.isProcessingQueue = false → s.refreshQueue ≠ [] → 0 < e →
      (processRefreshQueue urlQuery now (BackendResult.ok (some e) data) s).1.expirySeconds
        = e) ∧
    (∀ (urlQuery : String → Option (List (String × String))) (now e : Int)
        (data : List RefreshResponse) (s : ModuleState),
      s.isProcessingQueue = false → s.refreshQueue ≠ [] → ¬ 0 < e →
      (processRefreshQueue urlQuery now (BackendResult.ok (some e) data) s).1.expirySeconds
        = s.expirySeconds) ∧
    (∀ (urlQuery : String → Option (List (String × String))) (caseId : String)
        (imageIndex : Nat) (originalUrl : String) (now : Int) (s : ModuleState),
      mapGet s.urlCache (mkKey caseId imageIndex) = none →
      parseExpirationFromPresignedUrl (urlQuery originalUrl) now = none →
      0 < s.expirySeconds →
      mapGet (getUrl urlQuery caseId imageIndex originalUrl now s).2.1.urlCache
          (mkKey caseId imageIndex)
        = some ⟨originalUrl, now, s.expirySeconds * 1000, now + s.expirySeconds * 1000⟩) ∧
    (∀ (urlQuery : String → Option (List (String × String))) (now : Int)
        (resp : RefreshResponse) (s : ModuleState) (queued : QueuedRequest) (u : String),
      mapGet s.refreshQueue (mkKey resp.caseId resp.imageIndex) = some queued →
      successUrl resp = some u →
      parseExpirationFromPresignedUrl (urlQuery u) now = none →
      mapGet (processResponse urlQuery now resp s).1.urlCache
          (mkKey resp.caseId resp.imageIndex)
        = some ⟨u, now, s.expirySeconds * 1000, now + s.expirySeconds * 1000⟩) ∧
    (∀ (urlQuery : String → Option (List (String × String))) (caseId : String)
        (imageIndex : Nat) (key newUrl : String) (now : Int) (s : ModuleState),
      parseExpirationFromPresignedUrl (urlQuery newUrl) now = none →
      mapGet (proactiveFireSuccess urlQuery caseId imageIndex key newUrl now s).1.urlCache key
        = some ⟨newUrl, now, s.expirySeconds * 1000, now + s.expirySeconds * 1000⟩) ∧
    (∀ (urlQuery urlQuery2 : String → Option (List (String × String))) (now now2 e : Int)
        (data : List RefreshResponse) (s : ModuleState) (caseId2 : String)
        (imageIndex2 : Nat) (url2 : String),
      s.isProcessingQueue = false → s.refreshQueue ≠ [] → 0 < e →
      mapGet (processRefreshQueue urlQuery now
          (BackendResult.ok (some e) data) s).1.urlCache (mkKey caseId2 imageIndex2) = none →
      parseExpirationFromPresignedUrl (urlQuery2 url2) now2 = none →
      mapGet (getUrl urlQuery2 caseId2 imageIndex2 url2 now2
          (processRefreshQueue urlQuery now
            (BackendResult.ok (some e) data) s).1).2.1.urlCache (mkKey caseId2 imageIndex2)
        = some ⟨url2, now2, e * 1000, now2 + e * 1000⟩) := by
  have hfold : ∀ (urlQuery : String → Option (List (String × String))) (now : Int)
      (data : List RefreshResponse) (st : ModuleState) (ev : List Event),
      (data.foldl
        (fun (acc : ModuleState × List Event) resp =>
          let r := processResponse urlQuery now resp acc.1
          (r.1, acc.2 ++ r.2))
        (st, ev)).1.expirySeconds = st.expirySeconds := by
    intro urlQuery now data
    induction data with
    | nil => intro st ev; rfl
    | cons resp rest ih =>
      intro st ev
      rw [List.foldl_cons]
      rw [ih]
      exact processResponse_expirySeconds urlQuery now resp st
  have hguard : ∀ (s : ModuleState), s.isProcessingQueue = false → s.refreshQueue ≠ [] →
      ¬ (s.isProcessingQueue = true ∨ s.refreshQueue.isEmpty = true) := by
    intro s hflag hne
    rintro (h | h)
    · rw [hflag] at h
      exact Bool.false_ne_true h
    · exact hne (List.isEmpty_iff.mp h)
  have hset : ∀ (urlQuery : String → Option (List (String × String))) (now e : Int)
      (data : List RefreshResponse) (s : ModuleState),
      s.isProcessingQueue = false → s.refreshQueue ≠ [] → 0 < e →
      (processRefreshQueue urlQuery now (BackendResult.ok (some e) data) s).1.expirySeconds
        = e := by
    intro urlQuery now e data s hflag hne he
    simp only [processRefreshQueue]
    rw [if_neg (hguard s hflag hne)]
    simp only [if_pos he]
    split
    · simp [hfold]
    · simp [hfold]
  refine ⟨rfl, hset, ?_, ?_, ?_, ?_, ?_⟩
  · intro urlQuery now e data s hflag hne he
    simp only [processRefreshQueue]
    rw [if_neg (hguard s hflag hne)]
    simp only [if_neg he]
    split
    · simp [hfold]
    · simp [hfold]
  · intro urlQuery caseId imageIndex originalUrl now s hnone hparse hpos
    exact (getUrl_seed_parseFail urlQuery caseId imageIndex originalUrl now s
      hnone hparse hpos).2
  · intro urlQuery now resp s queued u hq hu hparse
    have h := processResponse_success_store urlQuery now resp s queued u hq hu
    rw [hparse, Option.map_none', Option.getD_none] at h
    exact h
  · intro urlQuery caseId imageIndex key newUrl now s hparse
    simp only [proactiveFireSuccess, hparse, Option.map_none', Option.getD_none]
    split
    · rw [scheduleProactiveRefresh_urlCache]
      exact mapGet_mapSet_self _ _ _
    · exact mapGet_mapSet_self _ _ _
  · intro urlQuery urlQuery2 now now2 e data s caseId2 imageIndex2 url2 hflag hne he
      hnone2 hparse2
    have hexp := hset urlQuery now e data s hflag hne he
    have hpos2 : 0 < (processRefreshQueue urlQuery now
        (BackendResult.ok (some e) data) s).1.expirySeconds := by
      rw [hexp]
      exact he
    have h := (getUrl_seed_parseFail urlQuery2 caseId2 imageIndex2 url2 now2
      (processRefreshQueue urlQuery now (BackendResult.ok (some e) data) s).1
      hnone2 hparse2 hpos2).2
    rw [hexp] at h
    exact h

/-- Witness for `expirySeconds_shared_fallback`: a batch response for key
`a-0` carrying `expirySeconds = 9` rewrites the module-wide fallback, and a
subsequent seeding of the uncached key `b-1` with an unparseable URL at
`now = 0` stores `expiresAt = 9000`. -/
theorem expirySeconds_shared_fallback_witness :
    mapGet (getUrl (fun _ => none) "b" 1 "v" 0
        (processRefreshQueue (fun _ => none) 0
          (BackendResult.ok (some 9) [⟨"a", 0, false, none, none⟩])
          { initialState with
              refreshQueue := [("a-0", ⟨"a", 0, [7], 0⟩)] }).1).2.1.urlCache (mkKey "b" 1)
      = some ⟨"v", 0, 9 * 1000, 0 + 9 * 1000⟩ :=
  expirySeconds_shared_fallback.2.2.2.2.2.2 (fun _ => none) (fun _ => none) 0 0 9
    [⟨"a", 0, false, none, none⟩]
    { initialState with refreshQueue := [("a-0", ⟨"a", 0, [7], 0⟩)] }
    "b" 1 "v" (by decide) (by decide) (by decide) (by decide) rfl

end UrlRefreshCache
